import Mathlib

/-!
Verification of the EV fleet charging optimizer (`ev_fleet_optimizer.py`).

The development shallowly embeds the program's core data model and the two
allocation strategies (`baseline_strategy`, lines 781–951, and the live
`optimized_strategy`, lines 2684–2996), together with the price-lookup logic,
`validate_parameters` and `calculate_average_price`.  Timestamps are minutes
(a 15-minute pandas slot becomes a stride of 15), and all float arithmetic is
embedded as exact rational arithmetic.
-/

set_option linter.unusedVariables false

namespace EVFleet

/-- Python `int()` applied to a rational: truncation toward zero. -/
def pyTrunc (q : ℚ) : ℤ := if 0 ≤ q then ⌊q⌋ else ⌈q⌉

/-- One entry of a vehicle's `charging_schedule`.  `baseline_strategy` stores a
bare kW number per hour; `optimized_strategy` stores a tagged record
(`DAM` / `IDM` / `MIXED`, lines 2929–2949). -/
inductive ScheduleEntry where
  | hourly (kw : ℚ)
  | dam (kw : ℚ)
  | idm (kw : ℚ) (use15 : Bool)
  | mixed (kwDam kwIdm : ℚ) (use15 : Bool)
deriving DecidableEq, Repr

/-- A fleet vehicle: the dictionary built by `initialize_fleet` (lines 425–439).
`current_soc` and `charging_schedule` are the mutable fields; the rest is fixed
at generation time.  Times are minutes since the epoch of the simulation. -/
structure Vehicle where
  arrival_time : ℕ
  departure_time : ℕ
  return_soc : ℚ
  target_soc : ℚ
  current_soc : ℚ
  capacity_kwh : ℚ
  min_charge_kw : ℚ
  max_charge_kw : ℚ
  charging_schedule : List (ℕ × ScheduleEntry)
deriving DecidableEq, Repr

/-- A price series: list of (timestamp, price) rows in dataframe order. -/
abbrev PriceTable := List (ℕ × ℚ)

/-- First table row whose timestamp lies in `[lo, lo + width)`
(the pandas boolean-mask lookup followed by `.iloc[0]`). -/
def bucketPrice (table : PriceTable) (lo width : ℕ) : Option ℚ :=
  ((table.filter (fun r => lo ≤ r.1 && r.1 < lo + width)).head?).map Prod.snd

/-- First row minimising `|Time - t|`:
pandas `(series - t).abs().idxmin()` returns the first minimiser. -/
def nearestRow (t : ℕ) : PriceTable → Option (ℕ × ℚ)
  | [] => none
  | r :: rs =>
    match nearestRow t rs with
    | none => some r
    | some b => if Nat.dist r.1 t ≤ Nat.dist b.1 t then some r else some b

/-- DAM price for an hour bucket: exact bucket, else the nearest row, else the
constant `50.0` (lines 2750–2764 and, for the baseline, 852–866). -/
def damPriceAt (damT : PriceTable) (hour : ℕ) : ℚ :=
  match bucketPrice damT hour 60 with
  | some p => p
  | none =>
    match nearestRow hour damT with
    | some r => r.2
    | none => 50

/-- The four price columns filled in for one 15-minute row. -/
structure SlotPrices where
  dam : ℚ
  idm15 : ℚ
  idm60 : ℚ
  idmBest : ℚ
deriving DecidableEq, Repr

/-- `time.replace(minute=0, second=0, microsecond=0)` on a minute timestamp. -/
def floorHour (t : ℕ) : ℕ := t / 60 * 60

/-- Price resolution for one 15-minute slot: the price-loading loop of
`optimized_strategy` (lines 2745–2794).  A missing IDM bucket falls back to the
already-resolved DAM price of the slot's hour. -/
def slotPrices (damT idm15T idm60T : PriceTable) (t : ℕ) : SlotPrices :=
  let hour := floorHour t
  let damP := damPriceAt damT hour
  let p15 := (bucketPrice idm15T t 15).getD damP
  let p60 := (bucketPrice idm60T hour 60).getD damP
  ⟨damP, p15, p60, min p15 p60⟩

/-- Console output of the price-loading loop of `optimized_strategy`
(lines 2745–2794): the loop body contains no print or logging statement, so
iterating it over the slot grid emits nothing, whether or not a price row
covers the slot. -/
def priceLoadWarnings (damT idm15T idm60T : PriceTable) (slots : List ℕ) :
    List String :=
  slots.foldl (fun log _t => log) []

/-- Comparison used to rank charging slots: ascending price. -/
def priceLe (a b : ℕ × ℚ) : Prop := a.2 ≤ b.2

instance : DecidableRel priceLe := fun a b => inferInstanceAs (Decidable (a.2 ≤ b.2))

/-- The greedy inner loop of Phase 1 of `optimized_strategy` (lines 2833–2855):
walk the price-ranked slots, take `min(max_charge_kw * 0.25, remaining)` kWh per
slot, record the corresponding kW, stop when the deficit is exhausted. -/
def optGreedy (maxKw : ℚ) : ℚ → List ℕ → List (ℕ × ℚ)
  | _, [] => []
  | remaining, t :: ts =>
    if remaining ≤ 0 then []
    else
      let amount := min (maxKw * (1/4)) remaining
      if 0 < amount then (t, amount / (1/4)) :: optGreedy maxKw (remaining - amount) ts
      else optGreedy maxKw remaining ts

/-- Phase 1 of `optimized_strategy` for one vehicle (lines 2814–2855): restrict
the slot grid to the stay window, rank by DAM price (stable sort, chronological
ties), and greedily record per-slot demand. -/
def vehicleDemands (damOf : ℕ → ℚ) (slots : List ℕ) (v : Vehicle) : List (ℕ × ℚ) :=
  let need := (v.target_soc - v.return_soc) * v.capacity_kwh
  if need ≤ 0 then []
  else
    let valid := slots.filter (fun t => v.arrival_time ≤ t && t < v.departure_time)
    let sorted := List.insertionSort priceLe (valid.map (fun t => (t, damOf t)))
    optGreedy v.max_charge_kw need (sorted.map Prod.fst)

/-- `get_eligible_vehicles` (lines 657–660). -/
def elig (start endT : ℕ) (v : Vehicle) : Bool :=
  decide (start < v.departure_time) && decide (v.arrival_time < endT)

/-- Helper for `needsAt`: walk the per-vehicle demand lists starting at
vehicle index `i` and collect the entries for slot `t`. -/
def needsFrom (t : ℕ) : ℕ → List (List (ℕ × ℚ)) → List (ℕ × ℚ)
  | _, [] => []
  | i, l :: rest =>
    (l.filter (fun e => e.1 == t)).map (fun e => (i, e.2)) ++ needsFrom t (i + 1) rest

/-- The per-slot demand record list (`time_slot_needs[time]['vehicles']`):
for each vehicle, in fleet order, its demand entries at slot `t` tagged with
the vehicle's index. -/
def needsAt (dls : List (List (ℕ × ℚ))) (t : ℕ) : List (ℕ × ℚ) :=
  needsFrom t 0 dls

/-- `total_power_kw` of a slot's need list. -/
def powerSum (needs : List (ℕ × ℚ)) : ℚ := (needs.map Prod.snd).sum

/-- Phase 2 slot split (lines 2868–2876): reserve `total * DAM_ALLOCATION` for
DAM, truncate the remainder down to a 100 kW multiple for IDM, give the
rounding loss back to DAM.  Returns `(dam_actual_kw, idm_actual_kw)`. -/
def allocFor (A total : ℚ) : ℚ × ℚ :=
  let dam_target := total * A
  let idm_target := total - dam_target
  let idm_actual := (pyTrunc (idm_target / 100) : ℚ) * 100
  (total - idm_actual, idm_actual)

/-- One row of the optimized schedule dataframe (lines 2715–2735). -/
structure ORow where
  time : ℕ
  total_charge_kw : ℚ := 0
  dam_charge_kw : ℚ := 0
  idm_charge_kw : ℚ := 0
  idm_15_charge_kw : ℚ := 0
  idm_60_charge_kw : ℚ := 0
  dam_price : ℚ := 0
  idm_price : ℚ := 0
  idm_15_price : ℚ := 0
  idm_60_price : ℚ := 0
  dam_cost : ℚ := 0
  idm_cost : ℚ := 0
  idm_15_cost : ℚ := 0
  idm_60_cost : ℚ := 0
  total_ev_charging : ℕ := 0
  total_ev_charging_dam : ℕ := 0
  total_ev_charging_idm : ℕ := 0
  total_ev_charging_idm_15 : ℕ := 0
  total_ev_charging_idm_60 : ℕ := 0
deriving DecidableEq, Repr

/-- Phase 2 row update for one slot (lines 2860–2905): prices are stored on
every row; charge columns are filled only when the slot has demand records. -/
def mkORow (A : ℚ) (t : ℕ) (sp : SlotPrices) (needs : List (ℕ × ℚ)) : ORow :=
  let base : ORow :=
    { time := t, dam_price := sp.dam, idm_price := sp.idmBest,
      idm_15_price := sp.idm15, idm_60_price := sp.idm60 }
  if needs.isEmpty then base
  else
    let total := powerSum needs
    let ia := (allocFor A total).2
    let da := (allocFor A total).1
    { base with
      total_charge_kw := total
      total_ev_charging := needs.length
      idm_15_charge_kw := if 0 < ia ∧ sp.idm15 ≤ sp.idm60 then ia else 0
      idm_60_charge_kw := if 0 < ia ∧ ¬ sp.idm15 ≤ sp.idm60 then ia else 0
      idm_charge_kw := if 0 < ia then ia else 0
      total_ev_charging_idm_15 := if 0 < ia ∧ sp.idm15 ≤ sp.idm60 then needs.length else 0
      total_ev_charging_idm_60 := if 0 < ia ∧ ¬ sp.idm15 ≤ sp.idm60 then needs.length else 0
      total_ev_charging_idm := if 0 < ia then needs.length else 0
      dam_charge_kw := if 0 < da then da else 0
      total_ev_charging_dam := if 0 < da then needs.length else 0 }

/-- The cost pass over the finished rows (lines 2952–2967):
`cost = kW * price / 1000 * 0.25`. -/
def addCosts (r : ORow) : ORow :=
  { r with
    dam_cost := r.dam_charge_kw * r.dam_price / 1000 * (1/4)
    idm_15_cost := r.idm_15_charge_kw * r.idm_15_price / 1000 * (1/4)
    idm_60_cost := r.idm_60_charge_kw * r.idm_60_price / 1000 * (1/4)
    idm_cost := r.idm_15_charge_kw * r.idm_15_price / 1000 * (1/4)
        + r.idm_60_charge_kw * r.idm_60_price / 1000 * (1/4) }

/-- Phase 3 update for one vehicle in one slot (lines 2912–2949): split the
vehicle's demand by the slot's DAM/IDM shares, advance the SOC, and record a
DAM / IDM / MIXED schedule entry. -/
def applyVeh (t : ℕ) (use15 : Bool) (damShare idmShare p : ℚ) (v : Vehicle) : Vehicle :=
  let vIdm := p * idmShare
  let vDam := p * damShare
  let totE := vIdm * (1/4) + vDam * (1/4)
  let sched :=
    if 0 < vIdm ∧ 0 < vDam then
      v.charging_schedule ++ [(t, ScheduleEntry.mixed vDam vIdm use15)]
    else if 0 < vIdm then v.charging_schedule ++ [(t, ScheduleEntry.idm vIdm use15)]
    else if 0 < vDam then v.charging_schedule ++ [(t, ScheduleEntry.dam vDam)]
    else v.charging_schedule
  { v with current_soc := v.current_soc + totE / v.capacity_kwh,
           charging_schedule := sched }

/-- Apply one demand record of a slot to the fleet state. -/
def applyEntry (t : ℕ) (use15 : Bool) (damShare idmShare : ℚ)
    (fl : List Vehicle) (e : ℕ × ℚ) : List Vehicle :=
  match fl[e.1]? with
  | none => fl
  | some v => fl.set e.1 (applyVeh t use15 damShare idmShare e.2 v)

/-- Phases 2–3 of `optimized_strategy` for one slot as they act on vehicle
state (lines 2860–2949): slots with no demand records are skipped and the
redistribution is guarded by `total_power_kw > 0`. -/
def processSlot (A : ℚ) (sp : SlotPrices) (t : ℕ) (needs : List (ℕ × ℚ))
    (fl : List Vehicle) : List Vehicle :=
  if needs.isEmpty then fl
  else
    let total := powerSum needs
    if 0 < total then
      needs.foldl
        (applyEntry t (decide (sp.idm15 ≤ sp.idm60))
          ((allocFor A total).1 / total) ((allocFor A total).2 / total)) fl
    else fl

/-- The per-vehicle reset at the start of `optimized_strategy` (lines 2809–2811). -/
def resetVehicle (v : Vehicle) : Vehicle :=
  { v with current_soc := v.return_soc, charging_schedule := [] }

/-- The 15-minute slot grid (lines 2707–2712). -/
def optSlots (start endT : ℕ) : List ℕ :=
  (List.range ((endT - start) / 15)).map (fun i => start + 15 * i)

/-- The DAM price used for slot ranking in Phase 1 (line 2828 reads the
already-resolved `dam_price` column). -/
def optDamOf (damT idm15T idm60T : PriceTable) (t : ℕ) : ℚ :=
  (slotPrices damT idm15T idm60T t).dam

/-- The fleet after the eligible vehicles have been reset (lines 2808–2811). -/
def optFleet1 (start endT : ℕ) (fleet : List Vehicle) : List Vehicle :=
  fleet.map (fun v => if elig start endT v then resetVehicle v else v)

/-- The Phase 1 demand projection of every fleet vehicle (non-eligible
vehicles are not iterated and contribute nothing). -/
def optDemandLists (damT idm15T idm60T : PriceTable) (start endT : ℕ)
    (fleet : List Vehicle) : List (List (ℕ × ℚ)) :=
  (optFleet1 start endT fleet).map (fun v =>
    if elig start endT v then
      vehicleDemands (optDamOf damT idm15T idm60T) (optSlots start endT) v
    else [])

/-- One chronological step of the Phase 2–3 loop acting on vehicle state. -/
def optStep (damT idm15T idm60T : PriceTable) (A : ℚ)
    (dls : List (List (ℕ × ℚ))) (fl : List Vehicle) (t : ℕ) : List Vehicle :=
  processSlot A (slotPrices damT idm15T idm60T t) t (needsAt dls t) fl

/-- Vehicle state after the first `k` slots of the optimized pass. -/
def optFleetAfter (damT idm15T idm60T : PriceTable) (A : ℚ) (start endT : ℕ)
    (fleet : List Vehicle) (k : ℕ) : List Vehicle :=
  ((optSlots start endT).take k).foldl
    (optStep damT idm15T idm60T A (optDemandLists damT idm15T idm60T start endT fleet))
    (optFleet1 start endT fleet)

/-- The live `optimized_strategy` (lines 2684–2996): returns the 15-minute
result rows and the mutated vehicle list. -/
def optimizedRun (damT idm15T idm60T : PriceTable) (A : ℚ) (start endT : ℕ)
    (fleet : List Vehicle) : List ORow × List Vehicle :=
  let slots := optSlots start endT
  let dls := optDemandLists damT idm15T idm60T start endT fleet
  let rows := slots.map (fun t =>
    addCosts (mkORow A t (slotPrices damT idm15T idm60T t) (needsAt dls t)))
  let fleet2 := slots.foldl (optStep damT idm15T idm60T A dls) (optFleet1 start endT fleet)
  (rows, fleet2)

/-- One row of the baseline schedule dataframe (lines 818–824). -/
structure BRow where
  time : ℕ
  total_charge_kw : ℚ := 0
  dam_price : ℚ := 0
  dam_cost : ℚ := 0
  total_ev_charging : ℕ := 0
deriving DecidableEq, Repr

/-- The greedy hourly loop of `baseline_strategy` (lines 901–919):
`min(max_charge_kw, remaining)` kWh per hour, recorded unconditionally,
stopping when the deficit is exhausted. -/
def baseGreedy (maxKw : ℚ) : ℚ → List ℕ → List (ℕ × ℚ)
  | _, [] => []
  | remaining, t :: ts =>
    if remaining ≤ 0 then []
    else
      let e := min maxKw remaining
      (t, e) :: baseGreedy maxKw (remaining - e) ts

/-- `baseline_strategy` for one vehicle (lines 872–919): clamp the stay window
to `[first slot, last slot)`, rank the hourly slots by DAM price, allocate
greedily.  Returns `[]` exactly when the vehicle is skipped (`continue`). -/
def baselineVehicleSched (damT : PriceTable) (slots : List ℕ) (v : Vehicle) :
    List (ℕ × ℚ) :=
  let need := (v.target_soc - v.return_soc) * v.capacity_kwh
  if need ≤ 0 then []
  else
    match slots.head?, slots.getLast? with
    | some lo, some hi =>
      let cs := max v.arrival_time lo
      let ce := min v.departure_time hi
      let chargingSlots := slots.filter (fun t => cs ≤ t && t < ce)
      let sorted := List.insertionSort priceLe
        (chargingSlots.map (fun t => (t, damPriceAt damT t)))
      baseGreedy v.max_charge_kw need (sorted.map Prod.fst)
    | _, _ => []

/-- The state written back into a vehicle by `baseline_strategy`
(lines 921–926): fresh schedule, SOC recomputed from `return_soc`. -/
def baselineUpdateVehicle (damT : PriceTable) (slots : List ℕ) (v : Vehicle) : Vehicle :=
  let entries := baselineVehicleSched damT slots v
  if entries.isEmpty then v
  else
    { v with
      charging_schedule := entries.map (fun e => (e.1, ScheduleEntry.hourly e.2))
      current_soc := v.return_soc + (entries.map Prod.snd).sum / v.capacity_kwh }

/-- The hourly slot grid of `baseline_strategy` (lines 805–816), including the
`simulation_hours <= 0` fallback to 24. -/
def baseSlots (start endT : ℕ) : List ℕ :=
  let hours0 := (endT - start) / 60
  let hours := if hours0 = 0 then 24 else hours0
  (List.range hours).map (fun i => start + 60 * i)

/-- The per-vehicle hourly schedules computed by `baseline_strategy`
(eligible vehicles only; a skipped vehicle contributes `[]`). -/
def baseScheds (damT : PriceTable) (start endT : ℕ) (fleet : List Vehicle) :
    List (List (ℕ × ℚ)) :=
  fleet.map (fun v =>
    if elig start endT v then baselineVehicleSched damT (baseSlots start endT) v else [])

/-- One hourly row of the baseline schedule, with the per-slot totals
accumulated over the vehicle loop and the cost pass of line 932. -/
def baseRowAt (damT : PriceTable) (scheds : List (List (ℕ × ℚ))) (t : ℕ) : BRow :=
  let kw := (scheds.map (fun s => ((s.filter (fun e => e.1 == t)).map Prod.snd).sum)).sum
  { time := t, total_charge_kw := kw, dam_price := damPriceAt damT t,
    dam_cost := kw * damPriceAt damT t / 1000,
    total_ev_charging := (scheds.filter (fun s => s.any (fun e => e.1 == t))).length }

/-- `baseline_strategy` (lines 781–951): returns the hourly result rows and
the mutated vehicle list.  Vehicles that are skipped keep their prior state. -/
def baselineRun (damT : PriceTable) (start endT : ℕ) (fleet : List Vehicle) :
    List BRow × List Vehicle :=
  ((baseSlots start endT).map (baseRowAt damT (baseScheds damT start endT fleet)),
   fleet.map (fun v =>
     if elig start endT v then baselineUpdateVehicle damT (baseSlots start endT) v else v))

/-- `calculate_average_price` (lines 3681–3699). -/
def calculate_average_price (energy_kwh cost_eur : ℚ) : ℚ :=
  if energy_kwh > 0 then cost_eur / (energy_kwh / 1000) else 0

/-- The constructor parameters of `EVFleetOptimizer` (lines 26–51). -/
structure OptimizerParams where
  fleet_size : ℤ
  ev_capacity : ℚ
  min_charge_kw : ℚ
  max_charge_kw : ℚ
  min_soc_target : ℚ
  workdays_only : Bool
deriving DecidableEq, Repr

/-- `validate_parameters` (lines 76–88), returning the message of the
`ValueError` it would raise, if any. -/
def validate_parameters (p : OptimizerParams) : Option String :=
  if p.fleet_size ≤ 0 then some "Velkost flotily musi byt kladne cislo"
  else if p.ev_capacity ≤ 0 then some "Kapacita baterie musi byt kladne cislo"
  else if p.min_charge_kw < 0 ∨ p.max_charge_kw ≤ 0 ∨ p.min_charge_kw > p.max_charge_kw then
    some "Neplatne hodnoty nabijacieho vykonu"
  else if p.min_soc_target ≤ 0 ∨ p.min_soc_target > 1 then
    some "Cielovy SOC musi byt v rozmedzi (0, 1]"
  else none

/-- `EVFleetOptimizer.__init__` (lines 26–74): it stores the parameters and
initialises empty data holders; it performs no validation and cannot raise.
Neither `__init__` nor `main` (lines 3706–3893) ever calls
`validate_parameters`. -/
def initOptimizer (p : OptimizerParams) : Except String OptimizerParams :=
  Except.ok p

instance : IsTotal (ℕ × ℚ) priceLe := ⟨fun a b => le_total a.2 b.2⟩

instance : IsTrans (ℕ × ℚ) priceLe := ⟨fun _ _ _ => le_trans⟩

/-- Modelled from the spec wording of claim C3: rank the stay-window slots by
ascending DAM price (same stable sort) and greedily record per-slot demand
`min(max_charge_kw, remaining_energy_deficit_kwh / 0.25)` in kW, consuming
slots until the deficit is exhausted or slots run out. -/
def specGreedy (maxKw : ℚ) : ℚ → List ℕ → List (ℕ × ℚ)
  | _, [] => []
  | deficit, t :: ts =>
    if deficit ≤ 0 then []
    else
      let pKw := min maxKw (deficit / (1/4))
      (t, pKw) :: specGreedy maxKw (deficit - pKw * (1/4)) ts

/-- Modelled from the spec wording of claim C3: the demand projection for one
vehicle, phrased in kW as the spec does. -/
def specVehicleDemands (damOf : ℕ → ℚ) (slots : List ℕ) (v : Vehicle) : List (ℕ × ℚ) :=
  if (v.target_soc - v.return_soc) * v.capacity_kwh ≤ 0 then []
  else
    specGreedy v.max_charge_kw ((v.target_soc - v.return_soc) * v.capacity_kwh)
      ((List.insertionSort priceLe
        ((slots.filter (fun t => v.arrival_time ≤ t && t < v.departure_time)).map
          (fun t => (t, damOf t)))).map Prod.fst)

/-- Agreement on every field that is fixed at fleet-generation time
(everything except `current_soc` and `charging_schedule`). -/
def sameImmutable (u v : Vehicle) : Prop :=
  u.arrival_time = v.arrival_time ∧ u.departure_time = v.departure_time ∧
  u.return_soc = v.return_soc ∧ u.target_soc = v.target_soc ∧
  u.capacity_kwh = v.capacity_kwh ∧ u.min_charge_kw = v.min_charge_kw ∧
  u.max_charge_kw = v.max_charge_kw

/-- Agreement on every field except `min_charge_kw` (claim C10's relation:
two fleets that differ only in the configured minimum charging power). -/
def sameExceptMin (u v : Vehicle) : Prop :=
  u.arrival_time = v.arrival_time ∧ u.departure_time = v.departure_time ∧
  u.return_soc = v.return_soc ∧ u.target_soc = v.target_soc ∧
  u.current_soc = v.current_soc ∧ u.capacity_kwh = v.capacity_kwh ∧
  u.max_charge_kw = v.max_charge_kw ∧ u.charging_schedule = v.charging_schedule

/-- Pointwise relation between two vehicle lists of equal length. -/
def listRel (R : Vehicle → Vehicle → Prop) (l1 l2 : List Vehicle) : Prop :=
  l1.length = l2.length ∧
  ∀ (i : ℕ) v1 v2, l1[i]? = some v1 → l2[i]? = some v2 → R v1 v2

/-- Fleet-level total cost of the optimized schedule (lines 2975–2978). -/
def optTotalCost (rows : List ORow) : ℚ :=
  (rows.map (fun r => r.dam_cost + r.idm_15_cost + r.idm_60_cost)).sum

/-- Fleet-level total cost of the baseline schedule (line 936). -/
def baseTotalCost (rows : List BRow) : ℚ :=
  (rows.map BRow.dam_cost).sum

instance : Inhabited ORow := ⟨{ time := 0 }⟩

/-- Concrete price tables and fleet used to instantiate the witnesses. -/
def wDam : PriceTable := [(0, 10)]

def wI15 : PriceTable := [(0, 5)]

def wI60 : PriceTable := [(0, 7)]

def wVeh : Vehicle :=
  { arrival_time := 0, departure_time := 15, return_soc := 0, target_soc := 1,
    current_soc := 0, capacity_kwh := 100, min_charge_kw := 0, max_charge_kw := 300,
    charging_schedule := [] }

/-- The single slot row produced by `optimizedRun` on the witness scenario:
one vehicle demanding 300 kW in slot 0 with `DAM_ALLOCATION = 1/2`. -/
def wRow : ORow :=
  ((optimizedRun wDam wI15 wI60 (1/2) 0 15 [wVeh]).1).getD 0 default

/-! ### Helper lemmas about price resolution -/

lemma nearestRow_spec (t : ℕ) :
    ∀ table : PriceTable, table ≠ [] →
      ∃ r ∈ table, nearestRow t table = some r ∧
        ∀ r2 ∈ table, Nat.dist r.1 t ≤ Nat.dist r2.1 t := by
  intro table
  induction table with
  | nil => intro h; exact absurd rfl h
  | cons a rs ih =>
    intro _
    by_cases hrs : rs = []
    · subst hrs
      refine ⟨a, List.mem_cons_self _ _, ?_, ?_⟩
      · simp [nearestRow]
      · intro r2 hr2
        rcases List.mem_singleton.mp hr2 with rfl
        exact le_refl _
    · obtain ⟨b, hbmem, hbeq, hbmin⟩ := ih hrs
      by_cases hle : Nat.dist a.1 t ≤ Nat.dist b.1 t
      · refine ⟨a, List.mem_cons_self _ _, ?_, ?_⟩
        · simp [nearestRow, hbeq, hle]
        · intro r2 hr2
          rcases List.mem_cons.mp hr2 with rfl | h2
          · exact le_refl _
          · exact le_trans hle (hbmin r2 h2)
      · refine ⟨b, List.mem_cons_of_mem _ hbmem, ?_, ?_⟩
        · simp [nearestRow, hbeq, hle]
        · intro r2 hr2
          rcases List.mem_cons.mp hr2 with rfl | h2
          · exact le_of_not_le hle
          · exact hbmin r2 h2

lemma priceLoadWarnings_nil (damT idm15T idm60T : PriceTable) (slots : List ℕ) :
    priceLoadWarnings damT idm15T idm60T slots = [] := by
  show slots.foldl (fun log _t => log) [] = []
  induction slots with
  | nil => rfl
  | cons t ts ih => simp [List.foldl_cons, ih]

/-! ### Claim C7 (corrected) -/

/-- Claim C7, counterexample.  DAM table `[(0, 40)]`, IDM-15 table `[(15, 99)]`,
slot `t = 0`: no IDM-15 row covers `[0, 15)`, the nearest IDM-15 row has price
99, yet the resolved IDM-15 price is the DAM price 40 — neither a
nearest-available IDM-15 value nor the fallback constant 50 — and the
price-loading loop emits no degraded-data warning. -/
theorem claim_C7_counterexample :
    (slotPrices [(0, 40)] [(15, 99)] [(0, 40)] 0).idm15 = 40 ∧
    (∀ r ∈ ([((15 : ℕ), (99 : ℚ))] : PriceTable), r.2 ≠ 40) ∧
    ((40 : ℚ) ≠ 50) ∧
    priceLoadWarnings [(0, 40)] [(15, 99)] [(0, 40)] [0] = [] := by
  refine ⟨by decide, by decide, by decide, priceLoadWarnings_nil _ _ _ _⟩

/-- Claim C7, amended.  For every slot, the DAM price resolves to the exact hour
bucket, else the (first) nearest DAM row, else the constant 50; the IDM-15 and
IDM-60 prices resolve to their exact bucket, else fall back to the slot's
resolved DAM price (not a nearest IDM match and not a constant); the resolved
prices flow as-is into the row's cost columns; and the price-loading loop logs
nothing. -/
theorem claim_C7 (damT idm15T idm60T : PriceTable) (t : ℕ) :
    (∀ p, bucketPrice idm15T t 15 = some p →
      (slotPrices damT idm15T idm60T t).idm15 = p) ∧
    (bucketPrice idm15T t 15 = none →
      (slotPrices damT idm15T idm60T t).idm15 = (slotPrices damT idm15T idm60T t).dam) ∧
    (∀ p, bucketPrice idm60T (floorHour t) 60 = some p →
      (slotPrices damT idm15T idm60T t).idm60 = p) ∧
    (bucketPrice idm60T (floorHour t) 60 = none →
      (slotPrices damT idm15T idm60T t).idm60 = (slotPrices damT idm15T idm60T t).dam) ∧
    (∀ p, bucketPrice damT (floorHour t) 60 = some p →
      (slotPrices damT idm15T idm60T t).dam = p) ∧
    (bucketPrice damT (floorHour t) 60 = none → damT = [] →
      (slotPrices damT idm15T idm60T t).dam = 50) ∧
    (bucketPrice damT (floorHour t) 60 = none → damT ≠ [] →
      ∃ r ∈ damT, (slotPrices damT idm15T idm60T t).dam = r.2 ∧
        ∀ r2 ∈ damT, Nat.dist r.1 (floorHour t) ≤ Nat.dist r2.1 (floorHour t)) ∧
    (∀ A needs, (addCosts (mkORow A t (slotPrices damT idm15T idm60T t) needs)).idm_15_cost
      = (mkORow A t (slotPrices damT idm15T idm60T t) needs).idm_15_charge_kw
          * (slotPrices damT idm15T idm60T t).idm15 / 1000 * (1/4)) ∧
    (∀ slots, priceLoadWarnings damT idm15T idm60T slots = []) := by
  refine ⟨?_, ?_, ?_, ?_, ?_, ?_, ?_, ?_, fun slots => priceLoadWarnings_nil _ _ _ _⟩
  · intro p hp; simp [slotPrices, hp]
  · intro hp; simp [slotPrices, hp]
  · intro p hp; simp [slotPrices, hp]
  · intro hp; simp [slotPrices, hp]
  · intro p hp; simp [slotPrices, damPriceAt, hp]
  · intro hp hnil; subst hnil; simp [slotPrices, damPriceAt, hp, nearestRow]
  · intro hp hne
    obtain ⟨r, hrmem, hreq, hrmin⟩ := nearestRow_spec (floorHour t) damT hne
    exact ⟨r, hrmem, by simp [slotPrices, damPriceAt, hp, hreq], hrmin⟩
  · intro A needs
    rcases needs with _ | ⟨e, es⟩ <;> simp [addCosts, mkORow, slotPrices]

/-- Claim C7, witness for the amended theorem.  Concrete instantiation: DAM table
`[(0, 40)]`, IDM-15 table `[(15, 99)]`, slot 0: the IDM-15 bucket is empty and
the resolved IDM-15 price is the resolved DAM price. -/
theorem claim_C7_witness :
    bucketPrice [(15, 99)] 0 15 = none ∧
    (slotPrices [(0, 40)] [(15, 99)] [(0, 40)] 0).idm15
      = (slotPrices [(0, 40)] [(15, 99)] [(0, 40)] 0).dam :=
  ⟨by decide, (claim_C7 [(0, 40)] [(15, 99)] [(0, 40)] 0).2.1 (by decide)⟩

/-! ### Claim C8 (confirmed) -/

/-- Claim C8.  `calculate_average_price` returns `total_cost / (total_energy/1000)`
for positive energy and `0` (not a division error) when the energy is zero. -/
theorem claim_C8 (e c : ℚ) :
    (e = 0 → calculate_average_price e c = 0) ∧
    (0 < e → calculate_average_price e c = c / (e / 1000)) := by
  constructor
  · rintro rfl; simp [calculate_average_price]
  · intro h; simp [calculate_average_price, h]

/-- Claim C8, witness. -/
theorem claim_C8_witness :
    calculate_average_price 0 5 = 0 ∧ calculate_average_price 2 5 = 5 / (2 / 1000) :=
  ⟨(claim_C8 0 5).1 rfl, (claim_C8 2 5).2 (by norm_num)⟩

/-! ### Claim C9 (code bug: `validate_parameters` is never invoked) -/

/-- Claim C9.  `validate_parameters` implements exactly the claimed checks —
it rejects `fleet_size = 0` and accepts the default parameters — but neither
`__init__` nor `main` ever calls it, so constructing the optimizer with an
invalid configuration succeeds and no `ValueError` reaches the caller before
the simulation runs. -/
theorem claim_C9 :
    initOptimizer ⟨0, 47, 3/2, 11, 9/10, true⟩
        = Except.ok ⟨0, 47, 3/2, 11, 9/10, true⟩ ∧
    validate_parameters ⟨0, 47, 3/2, 11, 9/10, true⟩
        = some "Velkost flotily musi byt kladne cislo" ∧
    validate_parameters ⟨30, 47, 3/2, 11, 9/10, true⟩ = none := by
  refine ⟨rfl, by norm_num [validate_parameters], by norm_num [validate_parameters]⟩

/-! ### Helper lemmas about the Phase 1 greedy loop -/

lemma optGreedy_fst_sublist (maxKw : ℚ) :
    ∀ (l : List ℕ) (rem : ℚ), ((optGreedy maxKw rem l).map Prod.fst).Sublist l := by
  intro l
  induction l with
  | nil => intro rem; simp [optGreedy]
  | cons t ts ih =>
    intro rem
    simp only [optGreedy]
    split_ifs with h1 h2
    · simp
    · simpa using List.Sublist.cons₂ t (ih _)
    · exact List.Sublist.cons t (ih _)

lemma optGreedy_mem_snd (maxKw : ℚ) :
    ∀ (l : List ℕ) (rem : ℚ) (e : ℕ × ℚ), e ∈ optGreedy maxKw rem l →
      0 < e.2 ∧ e.2 ≤ maxKw := by
  intro l
  induction l with
  | nil => intro rem e h; simp [optGreedy] at h
  | cons t ts ih =>
    intro rem e h
    simp only [optGreedy] at h
    split_ifs at h with h1 h2
    · simp at h
    · rcases List.mem_cons.mp h with rfl | h3
      · refine ⟨div_pos h2 (by norm_num), ?_⟩
        exact (div_le_iff₀ (by norm_num : (0:ℚ) < 1/4)).mpr (min_le_left _ _)
      · exact ih _ _ h3
    · exact ih _ _ h

lemma optGreedy_energy_le (maxKw : ℚ) :
    ∀ (l : List ℕ) (rem : ℚ), 0 ≤ rem →
      ((optGreedy maxKw rem l).map Prod.snd).sum * (1/4) ≤ rem := by
  intro l
  induction l with
  | nil => intro rem h; simpa [optGreedy] using h
  | cons t ts ih =>
    intro rem h
    simp only [optGreedy]
    split_ifs with h1 h2
    · simpa using h
    · have hle : min (maxKw * (1/4)) rem ≤ rem := min_le_right _ _
      have hrec := ih (rem - min (maxKw * (1/4)) rem) (by linarith)
      have hcanc : min (maxKw * (1/4)) rem / (1/4) * (1/4) = min (maxKw * (1/4)) rem :=
        div_mul_cancel₀ _ (by norm_num)
      simp only [List.map_cons, List.sum_cons, add_mul, hcanc]
      linarith
    · exact ih rem h

lemma vehicleDemands_mem (damOf : ℕ → ℚ) (slots : List ℕ) (v : Vehicle) :
    ∀ e ∈ vehicleDemands damOf slots v,
      (0 < e.2 ∧ e.2 ≤ v.max_charge_kw) ∧
      e.1 ∈ slots ∧ v.arrival_time ≤ e.1 ∧ e.1 < v.departure_time := by
  intro e he
  simp only [vehicleDemands] at he
  split_ifs at he with hneed
  · simp at he
  · refine ⟨optGreedy_mem_snd _ _ _ _ he, ?_⟩
    have h1 : e.1 ∈ (optGreedy v.max_charge_kw
        ((v.target_soc - v.return_soc) * v.capacity_kwh)
        ((List.insertionSort priceLe
          ((slots.filter (fun t => v.arrival_time ≤ t && t < v.departure_time)).map
            (fun t => (t, damOf t)))).map Prod.fst)).map Prod.fst :=
      List.mem_map_of_mem Prod.fst he
    have h2 := (optGreedy_fst_sublist _ _ _).subset h1
    have h3 : e.1 ∈ ((slots.filter
        (fun t => v.arrival_time ≤ t && t < v.departure_time)).map
          (fun t => (t, damOf t))).map Prod.fst :=
      ((List.perm_insertionSort priceLe _).map Prod.fst).mem_iff.mp h2
    have h4 : e.1 ∈ slots.filter (fun t => v.arrival_time ≤ t && t < v.departure_time) := by
      simpa [List.map_map, Function.comp] using h3
    have h5 := List.mem_filter.mp h4
    refine ⟨h5.1, ?_, ?_⟩
    · have := h5.2
      simp only [Bool.and_eq_true, decide_eq_true_eq] at this
      exact this.1
    · have := h5.2
      simp only [Bool.and_eq_true, decide_eq_true_eq] at this
      exact this.2

lemma vehicleDemands_sorted (damOf : ℕ → ℚ) (slots : List ℕ) (v : Vehicle) :
    List.Sorted (fun a b => damOf a ≤ damOf b)
      ((vehicleDemands damOf slots v).map Prod.fst) := by
  simp only [vehicleDemands]
  split_ifs with hneed
  · simp
  · set pairs := (slots.filter
      (fun t => v.arrival_time ≤ t && t < v.departure_time)).map
        (fun t => (t, damOf t)) with hpairs
    have hs : List.Sorted priceLe (List.insertionSort priceLe pairs) :=
      List.sorted_insertionSort priceLe pairs
    have hmem : ∀ x ∈ List.insertionSort priceLe pairs, x.2 = damOf x.1 := by
      intro x hx
      have hx2 : x ∈ pairs := (List.perm_insertionSort priceLe pairs).mem_iff.mp hx
      rw [hpairs] at hx2
      obtain ⟨t, _ht, rfl⟩ := List.mem_map.mp hx2
      rfl
    have hs2 : List.Pairwise (fun a b : ℕ × ℚ => damOf a.1 ≤ damOf b.1)
        (List.insertionSort priceLe pairs) := by
      refine hs.imp_of_mem ?_
      intro a b ha hb hab
      rw [← hmem a ha, ← hmem b hb]
      exact hab
    have hs3 : List.Pairwise (fun a b => damOf a ≤ damOf b)
        ((List.insertionSort priceLe pairs).map Prod.fst) :=
      List.pairwise_map.mpr hs2
    exact List.Pairwise.sublist (optGreedy_fst_sublist _ _ _) hs3

lemma optGreedy_eq_specGreedy (maxKw : ℚ) (hm : 0 < maxKw) :
    ∀ (l : List ℕ) (rem : ℚ), optGreedy maxKw rem l = specGreedy maxKw rem l := by
  intro l
  induction l with
  | nil => intro rem; rfl
  | cons t ts ih =>
    intro rem
    by_cases h1 : rem ≤ 0
    · simp [optGreedy, specGreedy, h1]
    · have hrpos : 0 < rem := not_le.mp h1
      have h4 : (0:ℚ) < 1/4 := by norm_num
      have hamt : 0 < min (maxKw * (1/4)) rem := lt_min (by positivity) hrpos
      have hkw : min (maxKw * (1/4)) rem / (1/4) = min maxKw (rem / (1/4)) := by
        rcases le_total (maxKw * (1/4)) rem with hc | hc
        · rw [min_eq_left hc, min_eq_left ((le_div_iff₀ h4).mpr hc)]
          exact mul_div_cancel_right₀ maxKw (by norm_num)
        · rw [min_eq_right hc, min_eq_right ((div_le_iff₀ h4).mpr hc)]
      have hsub : rem - min (maxKw * (1/4)) rem
          = rem - min maxKw (rem / (1/4)) * (1/4) := by
        rw [← hkw, div_mul_cancel₀ _ (by norm_num : (1/4 : ℚ) ≠ 0)]
      simp only [optGreedy, specGreedy, if_neg h1, if_pos hamt]
      rw [hkw, hsub]
      exact congrArg _ (ih _)

/-! ### Claim C3 (confirmed) -/

/-- Claim C3.  The Phase 1 demand projection of `optimized_strategy` coincides
with the spec's description: vehicles with non-positive `energy_needed_kwh`
contribute nothing; otherwise the stay-window slots inside the horizon are
ranked by ascending DAM price (stable sort, chronological ties) and consumed
greedily with per-slot demand `min(max_charge_kw, remaining_deficit / 0.25)`
kW; every recorded slot lies in the window, and the consumed slots are visited
in ascending price order. -/
theorem claim_C3 (damOf : ℕ → ℚ) (slots : List ℕ) (v : Vehicle)
    (hmax : 0 < v.max_charge_kw) :
    vehicleDemands damOf slots v = specVehicleDemands damOf slots v ∧
    ((v.target_soc - v.return_soc) * v.capacity_kwh ≤ 0 →
      vehicleDemands damOf slots v = []) ∧
    (∀ e ∈ vehicleDemands damOf slots v,
      e.1 ∈ slots ∧ v.arrival_time ≤ e.1 ∧ e.1 < v.departure_time ∧
      0 < e.2 ∧ e.2 ≤ v.max_charge_kw) ∧
    List.Sorted (fun a b => damOf a ≤ damOf b)
      ((vehicleDemands damOf slots v).map Prod.fst) := by
  refine ⟨?_, ?_, ?_, vehicleDemands_sorted damOf slots v⟩
  · simp only [vehicleDemands, specVehicleDemands]
    split_ifs with h
    · rfl
    · exact optGreedy_eq_specGreedy v.max_charge_kw hmax _ _
  · intro h
    simp only [vehicleDemands]
    simp [h]
  · intro e he
    obtain ⟨⟨p1, p2⟩, m1, m2, m3⟩ := vehicleDemands_mem damOf slots v e he
    exact ⟨m1, m2, m3, p1, p2⟩

/-- Claim C3, witness.  A concrete vehicle (0.5 kWh deficit, 8 kW cap, window
`[0, 60)`) over four slots with the cheapest DAM price at slot 30. -/
theorem claim_C3_witness :
    vehicleDemands (fun t => if t = 30 then 1 else 2) [0, 15, 30, 45]
        { arrival_time := 0, departure_time := 60, return_soc := 0,
          target_soc := 1/2, current_soc := 0, capacity_kwh := 1,
          min_charge_kw := 0, max_charge_kw := 8, charging_schedule := [] }
      = specVehicleDemands (fun t => if t = 30 then 1 else 2) [0, 15, 30, 45]
        { arrival_time := 0, departure_time := 60, return_soc := 0,
          target_soc := 1/2, current_soc := 0, capacity_kwh := 1,
          min_charge_kw := 0, max_charge_kw := 8, charging_schedule := [] } :=
  (claim_C3 _ _ _ (by norm_num)).1

/-! ### Helper lemmas about the slot need lists and the Phase 2 split -/

lemma needsFrom_lb (t : ℕ) :
    ∀ (dls : List (List (ℕ × ℚ))) (i : ℕ) (e : ℕ × ℚ),
      e ∈ needsFrom t i dls → i ≤ e.1 := by
  intro dls
  induction dls with
  | nil => intro i e h; simp [needsFrom] at h
  | cons l rest ih =>
    intro i e h
    simp only [needsFrom, List.mem_append] at h
    rcases h with h | h
    · obtain ⟨x, _, rfl⟩ := List.mem_map.mp h
      exact le_refl i
    · exact le_trans (Nat.le_succ i) (ih _ _ h)

lemma needsFrom_mem (t : ℕ) :
    ∀ (dls : List (List (ℕ × ℚ))) (i : ℕ) (e : ℕ × ℚ),
      e ∈ needsFrom t i dls → ∃ l ∈ dls, (t, e.2) ∈ l := by
  intro dls
  induction dls with
  | nil => intro i e h; simp [needsFrom] at h
  | cons l rest ih =>
    intro i e h
    simp only [needsFrom, List.mem_append] at h
    rcases h with h | h
    · obtain ⟨x, hx, rfl⟩ := List.mem_map.mp h
      have hx2 := List.mem_filter.mp hx
      refine ⟨l, List.mem_cons_self _ _, ?_⟩
      have hxt : x.1 = t := by simpa using hx2.2
      simpa [← hxt] using hx2.1
    · obtain ⟨l2, hl2, hm⟩ := ih _ _ h
      exact ⟨l2, List.mem_cons_of_mem _ hl2, hm⟩

lemma needsAt_snd_pos (dls : List (List (ℕ × ℚ))) (t : ℕ)
    (hl : ∀ l ∈ dls, ∀ x ∈ l, 0 < x.2) :
    ∀ e ∈ needsAt dls t, 0 < e.2 := by
  intro e he
  obtain ⟨l, hlm, hx⟩ := needsFrom_mem t dls 0 e he
  exact hl l hlm (t, e.2) hx

lemma optDemandLists_pos (damT idm15T idm60T : PriceTable) (start endT : ℕ)
    (fleet : List Vehicle) :
    ∀ l ∈ optDemandLists damT idm15T idm60T start endT fleet, ∀ x ∈ l, 0 < x.2 := by
  intro l hl x hx
  simp only [optDemandLists, List.mem_map] at hl
  obtain ⟨v, _, rfl⟩ := hl
  by_cases he : elig start endT v
  · rw [if_pos he] at hx
    exact (vehicleDemands_mem _ _ _ x hx).1.1
  · rw [if_neg he] at hx
    simp at hx

lemma powerSum_pos (needs : List (ℕ × ℚ)) (h : ∀ e ∈ needs, 0 < e.2)
    (hne : needs ≠ []) : 0 < powerSum needs := by
  unfold powerSum
  apply List.sum_pos
  · intro x hx
    obtain ⟨e, he, rfl⟩ := List.mem_map.mp hx
    exact h e he
  · simpa using hne

lemma allocFor_spec (A total : ℚ) (hA0 : 0 ≤ A) (hA1 : A ≤ 1) (ht : 0 ≤ total) :
    0 ≤ (allocFor A total).2 ∧ (allocFor A total).2 ≤ total ∧
    0 ≤ (allocFor A total).1 ∧ (allocFor A total).1 + (allocFor A total).2 = total ∧
    (allocFor A total).2 = (⌊(total - total * A) / 100⌋ : ℚ) * 100 ∧
    (∃ k : ℕ, (allocFor A total).2 = 100 * k) := by
  have hAt : total * A ≤ total := by
    calc total * A ≤ total * 1 := mul_le_mul_of_nonneg_left hA1 ht
    _ = total := mul_one total
  have hA0t : 0 ≤ total * A := mul_nonneg ht hA0
  have hq0 : 0 ≤ (total - total * A) / 100 := by
    apply div_nonneg _ (by norm_num)
    linarith
  have hfl0 : (0 : ℤ) ≤ ⌊(total - total * A) / 100⌋ := Int.le_floor.mpr (by exact_mod_cast hq0)
  have hpy : pyTrunc ((total - total * A) / 100) = ⌊(total - total * A) / 100⌋ := if_pos hq0
  have hval : (allocFor A total).2 = (⌊(total - total * A) / 100⌋ : ℚ) * 100 := by
    simp only [allocFor, hpy]
  have hle : (⌊(total - total * A) / 100⌋ : ℚ) * 100 ≤ total := by
    have h1 : (⌊(total - total * A) / 100⌋ : ℚ) ≤ (total - total * A) / 100 :=
      Int.floor_le _
    have h2 : (⌊(total - total * A) / 100⌋ : ℚ) * 100 ≤ (total - total * A) / 100 * 100 :=
      mul_le_mul_of_nonneg_right h1 (by norm_num)
    have h3 : (total - total * A) / 100 * 100 = total - total * A :=
      div_mul_cancel₀ _ (by norm_num)
    linarith
  have hff : (0 : ℚ) ≤ (⌊(total - total * A) / 100⌋ : ℚ) * 100 := by
    have : (0 : ℚ) ≤ (⌊(total - total * A) / 100⌋ : ℚ) := by exact_mod_cast hfl0
    positivity
  refine ⟨by rw [hval]; exact hff, by rw [hval]; exact hle, ?_, ?_, hval, ?_⟩
  · have : (allocFor A total).1 = total - (allocFor A total).2 := by
      simp only [allocFor]
    rw [this, hval]
    linarith
  · have : (allocFor A total).1 = total - (allocFor A total).2 := by
      simp only [allocFor]
    rw [this]
    ring
  · refine ⟨⌊(total - total * A) / 100⌋.toNat, ?_⟩
    rw [hval]
    have : ((⌊(total - total * A) / 100⌋.toNat : ℤ) : ℚ)
        = (⌊(total - total * A) / 100⌋ : ℚ) := by
      exact_mod_cast congrArg (fun z : ℤ => (z : ℚ)) (Int.toNat_of_nonneg hfl0)
    push_cast at this ⊢
    linarith [this]

lemma mkORow_empty (A : ℚ) (t : ℕ) (sp : SlotPrices) :
    mkORow A t sp [] =
      { time := t, dam_price := sp.dam, idm_price := sp.idmBest,
        idm_15_price := sp.idm15, idm_60_price := sp.idm60 } := by
  simp [mkORow]

lemma mkORow_fields (A : ℚ) (t : ℕ) (sp : SlotPrices) (needs : List (ℕ × ℚ))
    (hne : needs ≠ []) :
    (mkORow A t sp needs).total_charge_kw = powerSum needs ∧
    (mkORow A t sp needs).dam_charge_kw
      = (if 0 < (allocFor A (powerSum needs)).1 then (allocFor A (powerSum needs)).1 else 0) ∧
    (mkORow A t sp needs).idm_15_charge_kw
      = (if 0 < (allocFor A (powerSum needs)).2 ∧ sp.idm15 ≤ sp.idm60
          then (allocFor A (powerSum needs)).2 else 0) ∧
    (mkORow A t sp needs).idm_60_charge_kw
      = (if 0 < (allocFor A (powerSum needs)).2 ∧ ¬ sp.idm15 ≤ sp.idm60
          then (allocFor A (powerSum needs)).2 else 0) ∧
    (mkORow A t sp needs).idm_15_price = sp.idm15 ∧
    (mkORow A t sp needs).idm_60_price = sp.idm60 := by
  have h : needs.isEmpty = false := by
    cases needs with
    | nil => exact absurd rfl hne
    | cons e es => rfl
  refine ⟨?_, ?_, ?_, ?_, ?_, ?_⟩ <;> simp [mkORow, h]

lemma addCosts_charges (r : ORow) :
    (addCosts r).total_charge_kw = r.total_charge_kw ∧
    (addCosts r).dam_charge_kw = r.dam_charge_kw ∧
    (addCosts r).idm_15_charge_kw = r.idm_15_charge_kw ∧
    (addCosts r).idm_60_charge_kw = r.idm_60_charge_kw ∧
    (addCosts r).idm_15_price = r.idm_15_price ∧
    (addCosts r).idm_60_price = r.idm_60_price :=
  ⟨rfl, rfl, rfl, rfl, rfl, rfl⟩

lemma optimizedRun_fst (damT idm15T idm60T : PriceTable) (A : ℚ) (start endT : ℕ)
    (fleet : List Vehicle) :
    (optimizedRun damT idm15T idm60T A start endT fleet).1
      = (optSlots start endT).map (fun t =>
          addCosts (mkORow A t (slotPrices damT idm15T idm60T t)
            (needsAt (optDemandLists damT idm15T idm60T start endT fleet) t))) := rfl

/-! ### Claim C1 (confirmed) -/

/-- Claim C1.  Every row of the optimized schedule conserves energy
(`total = dam + idm_15 + idm_60`), the two IDM columns are exact multiples of
100 kW, and on every slot with positive demand `D` the booked IDM power equals
`floor((D - D*DAM_ALLOCATION)/100)*100`, DAM receives the exact remainder, and
a zero rounded IDM share sends 100 % of the slot's demand to DAM. -/
theorem claim_C1 (damT idm15T idm60T : PriceTable) (A : ℚ) (start endT : ℕ)
    (fleet : List Vehicle) (hA0 : 0 ≤ A) (hA1 : A ≤ 1) :
    ∀ r ∈ (optimizedRun damT idm15T idm60T A start endT fleet).1,
      r.total_charge_kw = r.dam_charge_kw + r.idm_15_charge_kw + r.idm_60_charge_kw ∧
      (∃ k : ℕ, r.idm_15_charge_kw = 100 * k) ∧
      (∃ k : ℕ, r.idm_60_charge_kw = 100 * k) ∧
      (0 < r.total_charge_kw →
        r.idm_15_charge_kw + r.idm_60_charge_kw
            = (⌊(r.total_charge_kw - r.total_charge_kw * A) / 100⌋ : ℚ) * 100 ∧
        r.dam_charge_kw
            = r.total_charge_kw - (r.idm_15_charge_kw + r.idm_60_charge_kw) ∧
        (r.idm_15_charge_kw + r.idm_60_charge_kw = 0 →
          r.dam_charge_kw = r.total_charge_kw)) := by
  intro r hr
  rw [optimizedRun_fst] at hr
  obtain ⟨t, _ht, rfl⟩ := List.mem_map.mp hr
  set sp := slotPrices damT idm15T idm60T t with hsp
  set needs := needsAt (optDemandLists damT idm15T idm60T start endT fleet) t with hnd
  by_cases hemp : needs = []
  · rw [hemp, mkORow_empty]
    refine ⟨by simp [addCosts], ⟨0, by simp [addCosts]⟩, ⟨0, by simp [addCosts]⟩, ?_⟩
    intro h
    exact absurd h (by simp [addCosts])
  · have hposall : ∀ e ∈ needs, 0 < e.2 := by
      rw [hnd]
      exact needsAt_snd_pos _ t (optDemandLists_pos damT idm15T idm60T start endT fleet)
    have htot : 0 < powerSum needs := powerSum_pos needs hposall hemp
    obtain ⟨hia0, hiale, hda0, hsum, hfloor, hk⟩ :=
      allocFor_spec A (powerSum needs) hA0 hA1 (le_of_lt htot)
    obtain ⟨hf1, hf2, hf3, hf4, _, _⟩ := mkORow_fields A t sp needs hemp
    obtain ⟨hc1, hc2, hc3, hc4, _, _⟩ := addCosts_charges (mkORow A t sp needs)
    set ia := (allocFor A (powerSum needs)).2 with hia
    set da := (allocFor A (powerSum needs)).1 with hda
    have hdamcol : (mkORow A t sp needs).dam_charge_kw = da := by
      rw [hf2]
      by_cases h : 0 < da
      · rw [if_pos h]
      · rw [if_neg h]
        have h0 : da = 0 := le_antisymm (not_lt.mp h) hda0
        rw [h0]
    have hicol : (mkORow A t sp needs).idm_15_charge_kw
        + (mkORow A t sp needs).idm_60_charge_kw = ia := by
      rw [hf3, hf4]
      by_cases h : 0 < ia
      · by_cases hcmp : sp.idm15 ≤ sp.idm60
        · simp [h, hcmp]
        · simp [h, hcmp]
      · have h0 : ia = 0 := le_antisymm (not_lt.mp h) hia0
        simp [h, h0]
    rw [hc1, hc2, hc3, hc4]
    refine ⟨?_, ?_, ?_, ?_⟩
    · rw [hf1, hdamcol]
      linarith [hicol, hsum]
    · rw [hf3]
      by_cases h : 0 < ia
      · by_cases hcmp : sp.idm15 ≤ sp.idm60
        · rw [if_pos ⟨h, hcmp⟩]; exact hk
        · rw [if_neg (by tauto)]; exact ⟨0, by norm_num⟩
      · rw [if_neg (by tauto)]; exact ⟨0, by norm_num⟩
    · rw [hf4]
      by_cases h : 0 < ia
      · by_cases hcmp : sp.idm15 ≤ sp.idm60
        · rw [if_neg (by tauto)]; exact ⟨0, by norm_num⟩
        · rw [if_pos ⟨h, hcmp⟩]; exact hk
      · rw [if_neg (by tauto)]; exact ⟨0, by norm_num⟩
    · intro _
      rw [hf1]
      refine ⟨by rw [hicol]; exact hfloor, ?_, ?_⟩
      · rw [hdamcol, hicol]
        linarith [hsum]
      · intro hz
        rw [hicol] at hz
        rw [hdamcol]
        rw [hz] at hsum
        linarith [hsum]

/-- Claim C1, witness.  Witness scenario: one vehicle demanding 300 kW in a single
slot with `DAM_ALLOCATION = 1/2` books 100 kW on IDM and 200 kW on DAM. -/
theorem claim_C1_witness :
    (0 : ℚ) ≤ 1/2 ∧ (1/2 : ℚ) ≤ 1 ∧
    (wRow.total_charge_kw = wRow.dam_charge_kw + wRow.idm_15_charge_kw + wRow.idm_60_charge_kw ∧
      (∃ k : ℕ, wRow.idm_15_charge_kw = 100 * k) ∧
      (∃ k : ℕ, wRow.idm_60_charge_kw = 100 * k) ∧
      (0 < wRow.total_charge_kw →
        wRow.idm_15_charge_kw + wRow.idm_60_charge_kw
            = (⌊(wRow.total_charge_kw - wRow.total_charge_kw * (1/2)) / 100⌋ : ℚ) * 100 ∧
        wRow.dam_charge_kw
            = wRow.total_charge_kw - (wRow.idm_15_charge_kw + wRow.idm_60_charge_kw) ∧
        (wRow.idm_15_charge_kw + wRow.idm_60_charge_kw = 0 →
          wRow.dam_charge_kw = wRow.total_charge_kw))) :=
  ⟨by norm_num, by norm_num,
    claim_C1 wDam wI15 wI60 (1/2) 0 15 [wVeh] (by norm_num) (by norm_num) wRow (List.mem_singleton_self wRow)⟩

/-! ### Claim C5 (confirmed) -/

/-- Claim C5.  In every optimized row at most one IDM column is nonzero; the
15-minute column is used exactly when the slot's IDM-15 price is less than or
equal to its IDM-60 price (ties to IDM-15), and the 60-minute column exactly
when IDM-60 is strictly cheaper. -/
theorem claim_C5 (damT idm15T idm60T : PriceTable) (A : ℚ) (start endT : ℕ)
    (fleet : List Vehicle) :
    ∀ r ∈ (optimizedRun damT idm15T idm60T A start endT fleet).1,
      (r.idm_15_charge_kw = 0 ∨ r.idm_60_charge_kw = 0) ∧
      (r.idm_15_charge_kw ≠ 0 → r.idm_15_price ≤ r.idm_60_price) ∧
      (r.idm_60_charge_kw ≠ 0 → r.idm_60_price < r.idm_15_price) ∧
      (r.idm_15_price ≤ r.idm_60_price → r.idm_60_charge_kw = 0) ∧
      (¬ r.idm_15_price ≤ r.idm_60_price → r.idm_15_charge_kw = 0) := by
  intro r hr
  rw [optimizedRun_fst] at hr
  obtain ⟨t, _ht, rfl⟩ := List.mem_map.mp hr
  set sp := slotPrices damT idm15T idm60T t with hsp
  set needs := needsAt (optDemandLists damT idm15T idm60T start endT fleet) t with hnd
  by_cases hemp : needs = []
  · rw [hemp, mkORow_empty]
    refine ⟨Or.inl (by simp [addCosts]), ?_, ?_, ?_, ?_⟩ <;> intro h
    · exact absurd (by simp [addCosts]) h
    · exact absurd (by simp [addCosts]) h
    · simp [addCosts]
    · simp [addCosts]
  · obtain ⟨_, _, hf3, hf4, hf5, hf6⟩ := mkORow_fields A t sp needs hemp
    obtain ⟨_, _, hc3, hc4, hc5, hc6⟩ := addCosts_charges (mkORow A t sp needs)
    rw [hc3, hc4, hc5, hc6, hf3, hf4, hf5, hf6]
    by_cases h : 0 < (allocFor A (powerSum needs)).2
    · by_cases hcmp : sp.idm15 ≤ sp.idm60
      · rw [if_pos ⟨h, hcmp⟩, if_neg (by tauto)]
        exact ⟨Or.inr rfl, fun _ => hcmp, fun hz => absurd rfl hz, fun _ => rfl,
          fun hn => absurd hcmp hn⟩
      · rw [if_neg (by tauto), if_pos ⟨h, hcmp⟩]
        exact ⟨Or.inl rfl, fun hz => absurd rfl hz, fun _ => not_le.mp hcmp,
          fun hle => absurd hle hcmp, fun _ => rfl⟩
    · rw [if_neg (by tauto), if_neg (by tauto)]
      exact ⟨Or.inl rfl, fun hz => absurd rfl hz, fun hz => absurd rfl hz,
        fun _ => rfl, fun _ => rfl⟩

/-- Claim C5, witness.  On the witness scenario the IDM-15 price (5) is below the
IDM-60 price (7), so the 100 kW IDM block lands on the 15-minute column. -/
theorem claim_C5_witness :
    (wRow.idm_15_charge_kw = 0 ∨ wRow.idm_60_charge_kw = 0) ∧
    (wRow.idm_15_charge_kw ≠ 0 → wRow.idm_15_price ≤ wRow.idm_60_price) ∧
    (wRow.idm_60_charge_kw ≠ 0 → wRow.idm_60_price < wRow.idm_15_price) ∧
    (wRow.idm_15_price ≤ wRow.idm_60_price → wRow.idm_60_charge_kw = 0) ∧
    (¬ wRow.idm_15_price ≤ wRow.idm_60_price → wRow.idm_15_charge_kw = 0) :=
  claim_C5 wDam wI15 wI60 (1/2) 0 15 [wVeh] wRow (List.mem_singleton_self wRow)

/-! ### Claim C2 (confirmed) -/

/-- Claim C2.  Slots with no demand records are skipped entirely; for a slot with
positive total demand the DAM/IDM shares handed to each vehicle are
`p * dam_actual/total` and `p * idm_actual/total` and always sum back to the
vehicle's demand `p`; on the spec's concrete example (250 kW total,
`DAM_ALLOCATION = 1/2`) the split is `(dam, idm) = (150, 100)` and a vehicle
demanding 50 kW receives 30 kW DAM and 20 kW IDM, its SOC advancing by the
corresponding energy. -/
theorem claim_C2 :
    (∀ (A : ℚ) (sp : SlotPrices) (t : ℕ) (fl : List Vehicle),
      processSlot A sp t [] fl = fl) ∧
    (∀ (A total p : ℚ), 0 < total →
      p * ((allocFor A total).1 / total) + p * ((allocFor A total).2 / total) = p) ∧
    (allocFor (1/2) 250 = (150, 100)) ∧
    ((50 : ℚ) * ((allocFor (1/2) 250).1 / 250) = 30 ∧
      (50 : ℚ) * ((allocFor (1/2) 250).2 / 250) = 20) ∧
    (∀ (t : ℕ) (use15 : Bool) (v : Vehicle),
      (applyVeh t use15 ((allocFor (1/2) 250).1 / 250) ((allocFor (1/2) 250).2 / 250)
          50 v).current_soc
        = v.current_soc + (20 * (1/4) + 30 * (1/4)) / v.capacity_kwh) := by
  have hfloor : (⌊((250 : ℚ) - 250 * (1/2)) / 100⌋ : ℤ) = 1 := by
    rw [show ((250 : ℚ) - 250 * (1/2)) / 100 = 5/4 by norm_num]
    rw [Int.floor_eq_iff]
    norm_num
  have halloc : allocFor (1/2) 250 = ((150 : ℚ), (100 : ℚ)) := by
    have hpy : pyTrunc (((250 : ℚ) - 250 * (1/2)) / 100) = 1 := by
      unfold pyTrunc
      rw [if_pos (by norm_num)]
      exact hfloor
    simp only [allocFor, hpy]
    norm_num
  refine ⟨?_, ?_, halloc, ?_, ?_⟩
  · intro A sp t fl
    simp [processSlot]
  · intro A total p htot
    have h : (allocFor A total).1 = total - (allocFor A total).2 := by
      simp only [allocFor]
    rw [h]
    field_simp
    ring
  · rw [halloc]
    norm_num
  · intro t use15 v
    simp only [applyVeh, halloc]
    norm_num

/-- Claim C2, witness.  The proportional shares of a 50 kW vehicle in a 250 kW
slot sum back to 50 kW. -/
theorem claim_C2_witness :
    (50 : ℚ) * ((allocFor (1/2) 250).1 / 250) + 50 * ((allocFor (1/2) 250).2 / 250) = 50 :=
  claim_C2.2.1 (1/2) 250 50 (by norm_num)

/-! ### Pointwise fleet relations -/

lemma listRel_get {R : Vehicle → Vehicle → Prop} {l1 l2 : List Vehicle}
    (h : listRel R l1 l2) (i : ℕ) :
    (l1[i]? = none ∧ l2[i]? = none) ∨
    ∃ v1 v2, l1[i]? = some v1 ∧ l2[i]? = some v2 ∧ R v1 v2 := by
  by_cases hi : i < l1.length
  · have hi2 : i < l2.length := h.1 ▸ hi
    refine Or.inr ⟨l1[i], l2[i], List.getElem?_eq_getElem hi, List.getElem?_eq_getElem hi2, ?_⟩
    exact h.2 i _ _ (List.getElem?_eq_getElem hi) (List.getElem?_eq_getElem hi2)
  · have hi2 : ¬ i < l2.length := by rw [← h.1]; exact hi
    exact Or.inl ⟨List.getElem?_eq_none (le_of_not_lt hi),
      List.getElem?_eq_none (le_of_not_lt hi2)⟩

lemma listRel_map_self {R : Vehicle → Vehicle → Prop} (l : List Vehicle)
    (f : Vehicle → Vehicle) (h : ∀ v, R v (f v)) : listRel R l (l.map f) := by
  refine ⟨(List.length_map _ _).symm, ?_⟩
  intro i v1 v2 h1 h2
  rw [List.getElem?_map, h1] at h2
  cases h2
  exact h v1

lemma listRel_trans {R : Vehicle → Vehicle → Prop} (hR : Transitive R)
    {l1 l2 l3 : List Vehicle} (h12 : listRel R l1 l2) (h23 : listRel R l2 l3) :
    listRel R l1 l3 := by
  refine ⟨h12.1.trans h23.1, ?_⟩
  intro i v1 v3 h1 h3
  rcases listRel_get h12 i with ⟨hn, _⟩ | ⟨w1, w2, hw1, hw2, hw⟩
  · rw [hn] at h1; cases h1
  · rw [hw1] at h1
    cases h1
    exact hR hw (h23.2 i _ _ hw2 h3)

lemma map_eq_of_listRel {R : Vehicle → Vehicle → Prop} {l1 l2 : List Vehicle}
    {α : Type} (f : Vehicle → α) (h : listRel R l1 l2)
    (hf : ∀ u v, R u v → f u = f v) : l1.map f = l2.map f := by
  apply List.ext_getElem?
  intro i
  rw [List.getElem?_map, List.getElem?_map]
  rcases listRel_get h i with ⟨hn1, hn2⟩ | ⟨v1, v2, h1, h2, hv⟩
  · rw [hn1, hn2]
  · rw [h1, h2]
    simp [hf v1 v2 hv]

lemma listRel_set {R : Vehicle → Vehicle → Prop} {l1 l2 : List Vehicle}
    (h : listRel R l1 l2) (i : ℕ) (v2' : Vehicle)
    (hv : ∀ v1, l1[i]? = some v1 → R v1 v2') :
    listRel R l1 (l2.set i v2') := by
  refine ⟨h.1.trans (List.length_set _ _ _).symm, ?_⟩
  intro j v1 v2 h1 h2
  by_cases hij : i = j
  · subst hij
    by_cases hi : i < l2.length
    · rw [List.getElem?_set_self' ] at h2
      · rw [List.getElem?_eq_getElem hi] at h2
        simp at h2
        rw [← h2]
        exact hv v1 h1
    · have hn : l1[i]? = none := by
        apply List.getElem?_eq_none
        rw [h.1]
        exact le_of_not_lt hi
      rw [hn] at h1
      cases h1
  · rw [List.getElem?_set_ne hij] at h2
    exact h.2 j v1 v2 h1 h2

lemma sameImmutable_trans : Transitive sameImmutable := by
  intro a b c hab hbc
  obtain ⟨a1, a2, a3, a4, a5, a6, a7⟩ := hab
  obtain ⟨b1, b2, b3, b4, b5, b6, b7⟩ := hbc
  exact ⟨a1.trans b1, a2.trans b2, a3.trans b3, a4.trans b4,
    a5.trans b5, a6.trans b6, a7.trans b7⟩

lemma sameImmutable_refl (v : Vehicle) : sameImmutable v v :=
  ⟨rfl, rfl, rfl, rfl, rfl, rfl, rfl⟩

/-! ### Congruence: the strategies read only generation-time fields -/

lemma vehicleDemands_eq_of_fields (damOf : ℕ → ℚ) (slots : List ℕ) {u v : Vehicle}
    (h1 : u.arrival_time = v.arrival_time) (h2 : u.departure_time = v.departure_time)
    (h3 : u.return_soc = v.return_soc) (h4 : u.target_soc = v.target_soc)
    (h5 : u.capacity_kwh = v.capacity_kwh) (h6 : u.max_charge_kw = v.max_charge_kw) :
    vehicleDemands damOf slots u = vehicleDemands damOf slots v := by
  simp only [vehicleDemands, h1, h2, h3, h4, h5, h6]

lemma elig_eq_of_fields (start endT : ℕ) {u v : Vehicle}
    (h1 : u.arrival_time = v.arrival_time) (h2 : u.departure_time = v.departure_time) :
    elig start endT u = elig start endT v := by
  simp only [elig, h1, h2]

lemma baselineVehicleSched_eq_of_fields (damT : PriceTable) (slots : List ℕ)
    {u v : Vehicle}
    (h1 : u.arrival_time = v.arrival_time) (h2 : u.departure_time = v.departure_time)
    (h3 : u.return_soc = v.return_soc) (h4 : u.target_soc = v.target_soc)
    (h5 : u.capacity_kwh = v.capacity_kwh) (h6 : u.max_charge_kw = v.max_charge_kw) :
    baselineVehicleSched damT slots u = baselineVehicleSched damT slots v := by
  simp only [baselineVehicleSched, h1, h2, h3, h4, h5, h6]

lemma optDemandLists_eq_of_rel {R : Vehicle → Vehicle → Prop}
    (damT idm15T idm60T : PriceTable) (start endT : ℕ) {l1 l2 : List Vehicle}
    (h : listRel R l1 l2)
    (hfields : ∀ u v, R u v →
      u.arrival_time = v.arrival_time ∧ u.departure_time = v.departure_time ∧
      u.return_soc = v.return_soc ∧ u.target_soc = v.target_soc ∧
      u.capacity_kwh = v.capacity_kwh ∧ u.max_charge_kw = v.max_charge_kw) :
    optDemandLists damT idm15T idm60T start endT l1
      = optDemandLists damT idm15T idm60T start endT l2 := by
  unfold optDemandLists optFleet1
  rw [List.map_map, List.map_map]
  apply map_eq_of_listRel _ h
  intro u v huv
  obtain ⟨h1, h2, h3, h4, h5, h6⟩ := hfields u v huv
  have he : elig start endT u = elig start endT v := elig_eq_of_fields start endT h1 h2
  have her : ∀ w, elig start endT (resetVehicle w) = elig start endT w := fun _ => rfl
  simp only [Function.comp]
  by_cases hu : elig start endT u
  · have hv : elig start endT v = true := he ▸ hu
    simp only [hu, hv, if_true, eq_self_iff_true, her]
    exact vehicleDemands_eq_of_fields _ _ h1 h2 h3 h4 h5 h6
  · have hv : ¬ elig start endT v = true := fun hb => hu (by rw [he]; exact hb)
    simp only [if_neg hu, if_neg hv]

lemma baseScheds_eq_of_rel {R : Vehicle → Vehicle → Prop}
    (damT : PriceTable) (start endT : ℕ) {l1 l2 : List Vehicle}
    (h : listRel R l1 l2)
    (hfields : ∀ u v, R u v →
      u.arrival_time = v.arrival_time ∧ u.departure_time = v.departure_time ∧
      u.return_soc = v.return_soc ∧ u.target_soc = v.target_soc ∧
      u.capacity_kwh = v.capacity_kwh ∧ u.max_charge_kw = v.max_charge_kw) :
    baseScheds damT start endT l1 = baseScheds damT start endT l2 := by
  unfold baseScheds
  apply map_eq_of_listRel _ h
  intro u v huv
  obtain ⟨h1, h2, h3, h4, h5, h6⟩ := hfields u v huv
  have he : elig start endT u = elig start endT v := elig_eq_of_fields start endT h1 h2
  by_cases hu : elig start endT u
  · rw [if_pos hu, if_pos (he ▸ hu)]
    exact baselineVehicleSched_eq_of_fields _ _ h1 h2 h3 h4 h5 h6
  · rw [if_neg hu, if_neg (he ▸ hu)]

lemma sameImmutable_fields {u v : Vehicle} (h : sameImmutable u v) :
    u.arrival_time = v.arrival_time ∧ u.departure_time = v.departure_time ∧
    u.return_soc = v.return_soc ∧ u.target_soc = v.target_soc ∧
    u.capacity_kwh = v.capacity_kwh ∧ u.max_charge_kw = v.max_charge_kw :=
  ⟨h.1, h.2.1, h.2.2.1, h.2.2.2.1, h.2.2.2.2.1, h.2.2.2.2.2.2⟩

lemma sameExceptMin_fields {u v : Vehicle} (h : sameExceptMin u v) :
    u.arrival_time = v.arrival_time ∧ u.departure_time = v.departure_time ∧
    u.return_soc = v.return_soc ∧ u.target_soc = v.target_soc ∧
    u.capacity_kwh = v.capacity_kwh ∧ u.max_charge_kw = v.max_charge_kw :=
  ⟨h.1, h.2.1, h.2.2.1, h.2.2.2.1, h.2.2.2.2.2.1, h.2.2.2.2.2.2.1⟩

/-! ### The runs only rewrite the mutable vehicle fields -/

lemma applyVeh_sameImmutable (t : ℕ) (use15 : Bool) (dS iS p : ℚ) (v : Vehicle) :
    sameImmutable v (applyVeh t use15 dS iS p v) :=
  ⟨rfl, rfl, rfl, rfl, rfl, rfl, rfl⟩

lemma applyEntry_immut {base fl : List Vehicle}
    (h : listRel sameImmutable base fl) (t : ℕ) (use15 : Bool) (dS iS : ℚ)
    (e : ℕ × ℚ) :
    listRel sameImmutable base (applyEntry t use15 dS iS fl e) := by
  unfold applyEntry
  cases hx : fl[e.1]? with
  | none => exact h
  | some v =>
    apply listRel_set h
    intro v1 h1
    exact sameImmutable_trans (h.2 e.1 v1 v h1 hx) (applyVeh_sameImmutable _ _ _ _ _ v)

lemma foldl_applyEntry_immut {base : List Vehicle} (t : ℕ) (use15 : Bool) (dS iS : ℚ) :
    ∀ (needs : List (ℕ × ℚ)) (fl : List Vehicle),
      listRel sameImmutable base fl →
      listRel sameImmutable base (needs.foldl (applyEntry t use15 dS iS) fl) := by
  intro needs
  induction needs with
  | nil => intro fl h; exact h
  | cons e es ih =>
    intro fl h
    exact ih _ (applyEntry_immut h t use15 dS iS e)

lemma processSlot_immut {base fl : List Vehicle}
    (h : listRel sameImmutable base fl) (A : ℚ) (sp : SlotPrices) (t : ℕ)
    (needs : List (ℕ × ℚ)) :
    listRel sameImmutable base (processSlot A sp t needs fl) := by
  simp only [processSlot]
  split_ifs with h1 h2
  · exact h
  · exact foldl_applyEntry_immut _ _ _ _ needs fl h
  · exact h

lemma foldl_optStep_immut (damT idm15T idm60T : PriceTable) (A : ℚ)
    (dls : List (List (ℕ × ℚ))) {base : List Vehicle} :
    ∀ (slots : List ℕ) (fl : List Vehicle), listRel sameImmutable base fl →
      listRel sameImmutable base (slots.foldl (optStep damT idm15T idm60T A dls) fl) := by
  intro slots
  induction slots with
  | nil => intro fl h; exact h
  | cons t ts ih =>
    intro fl h
    exact ih _ (processSlot_immut h A _ t _)

lemma optimizedRun_immut (damT idm15T idm60T : PriceTable) (A : ℚ) (start endT : ℕ)
    (fleet : List Vehicle) :
    listRel sameImmutable fleet (optimizedRun damT idm15T idm60T A start endT fleet).2 := by
  have h0 : listRel sameImmutable fleet (optFleet1 start endT fleet) := by
    apply listRel_map_self
    intro v
    by_cases h : elig start endT v
    · rw [if_pos h]
      exact ⟨rfl, rfl, rfl, rfl, rfl, rfl, rfl⟩
    · rw [if_neg h]
      exact sameImmutable_refl v
  exact foldl_optStep_immut damT idm15T idm60T A _ _ _ h0

lemma baselineRun_immut (damT : PriceTable) (start endT : ℕ) (fleet : List Vehicle) :
    listRel sameImmutable fleet (baselineRun damT start endT fleet).2 := by
  apply listRel_map_self
  intro v
  by_cases h : elig start endT v
  · rw [if_pos h]
    simp only [baselineUpdateVehicle]
    split_ifs
    · exact sameImmutable_refl v
    · exact ⟨rfl, rfl, rfl, rfl, rfl, rfl, rfl⟩
  · rw [if_neg h]
    exact sameImmutable_refl v

lemma baselineRun_fst (damT : PriceTable) (start endT : ℕ) (fleet : List Vehicle) :
    (baselineRun damT start endT fleet).1
      = (baseSlots start endT).map (baseRowAt damT (baseScheds damT start endT fleet)) := rfl

/-! ### Claim C6 (confirmed) -/

/-- Claim C6.  Baseline independence: running `baseline_strategy` on the vehicle
state left behind by `optimized_strategy` yields exactly the same result rows
and total cost as running it on the fresh fleet, and vice versa — each
strategy reads only generation-time vehicle fields and resets or overwrites
the mutable ones, so neither returned schedule depends on the other's
mutations. -/
theorem claim_C6 (damT idm15T idm60T : PriceTable) (A : ℚ) (start endT : ℕ)
    (fleet : List Vehicle) :
    (baselineRun damT start endT
        ((optimizedRun damT idm15T idm60T A start endT fleet).2)).1
      = (baselineRun damT start endT fleet).1 ∧
    baseTotalCost (baselineRun damT start endT
        ((optimizedRun damT idm15T idm60T A start endT fleet).2)).1
      = baseTotalCost (baselineRun damT start endT fleet).1 ∧
    (optimizedRun damT idm15T idm60T A start endT
        ((baselineRun damT start endT fleet).2)).1
      = (optimizedRun damT idm15T idm60T A start endT fleet).1 ∧
    optTotalCost (optimizedRun damT idm15T idm60T A start endT
        ((baselineRun damT start endT fleet).2)).1
      = optTotalCost (optimizedRun damT idm15T idm60T A start endT fleet).1 := by
  have h1 : baseScheds damT start endT
      ((optimizedRun damT idm15T idm60T A start endT fleet).2)
      = baseScheds damT start endT fleet := by
    exact (baseScheds_eq_of_rel damT start endT
      (optimizedRun_immut damT idm15T idm60T A start endT fleet)
      (fun u v h => sameImmutable_fields h)).symm
  have h2 : optDemandLists damT idm15T idm60T start endT
      ((baselineRun damT start endT fleet).2)
      = optDemandLists damT idm15T idm60T start endT fleet := by
    exact (optDemandLists_eq_of_rel damT idm15T idm60T start endT
      (baselineRun_immut damT start endT fleet)
      (fun u v h => sameImmutable_fields h)).symm
  have hb : (baselineRun damT start endT
      ((optimizedRun damT idm15T idm60T A start endT fleet).2)).1
      = (baselineRun damT start endT fleet).1 := by
    rw [baselineRun_fst, baselineRun_fst, h1]
  have ho : (optimizedRun damT idm15T idm60T A start endT
      ((baselineRun damT start endT fleet).2)).1
      = (optimizedRun damT idm15T idm60T A start endT fleet).1 := by
    rw [optimizedRun_fst, optimizedRun_fst, h2]
  exact ⟨hb, congrArg baseTotalCost hb, ho, congrArg optTotalCost ho⟩

/-! ### Claim C10: `min_charge_kw` is never read -/

lemma listRel_set₂ {R : Vehicle → Vehicle → Prop} {l1 l2 : List Vehicle}
    (h : listRel R l1 l2) (i : ℕ) {a b : Vehicle} (hab : R a b) :
    listRel R (l1.set i a) (l2.set i b) := by
  refine ⟨by rw [List.length_set, List.length_set, h.1], ?_⟩
  intro j v1 v2 h1 h2
  by_cases hij : i = j
  · subst hij
    by_cases hi : i < l1.length
    · rw [List.getElem?_set_eq_of_lt a hi] at h1
      rw [List.getElem?_set_eq_of_lt b (h.1 ▸ hi)] at h2
      cases h1
      cases h2
      exact hab
    · have hn : (l1.set i a)[i]? = none := by
        apply List.getElem?_eq_none
        rw [List.length_set]
        exact le_of_not_lt hi
      rw [hn] at h1
      cases h1
  · rw [List.getElem?_set_ne hij] at h1
    rw [List.getElem?_set_ne hij] at h2
    exact h.2 j v1 v2 h1 h2

lemma applyVeh_parallel (t : ℕ) (b : Bool) (dS iS p : ℚ) {u v : Vehicle}
    (h : sameExceptMin u v) :
    sameExceptMin (applyVeh t b dS iS p u) (applyVeh t b dS iS p v) := by
  obtain ⟨e1, e2, e3, e4, e5, e6, e7, e8⟩ := h
  refine ⟨?_, ?_, ?_, ?_, ?_, ?_, ?_, ?_⟩ <;>
    simp only [applyVeh] <;> simp [e1, e2, e3, e4, e5, e6, e7, e8]

lemma applyEntry_parallel {fl1 fl2 : List Vehicle}
    (h : listRel sameExceptMin fl1 fl2) (t : ℕ) (b : Bool) (dS iS : ℚ)
    (e : ℕ × ℚ) :
    listRel sameExceptMin (applyEntry t b dS iS fl1 e) (applyEntry t b dS iS fl2 e) := by
  unfold applyEntry
  rcases listRel_get h e.1 with ⟨hn1, hn2⟩ | ⟨v1, v2, h1, h2, hv⟩
  · rw [hn1, hn2]
    exact h
  · rw [h1, h2]
    exact listRel_set₂ h e.1 (applyVeh_parallel t b dS iS e.2 hv)

lemma foldl_applyEntry_parallel (t : ℕ) (b : Bool) (dS iS : ℚ) :
    ∀ (needs : List (ℕ × ℚ)) {fl1 fl2 : List Vehicle},
      listRel sameExceptMin fl1 fl2 →
      listRel sameExceptMin (needs.foldl (applyEntry t b dS iS) fl1)
        (needs.foldl (applyEntry t b dS iS) fl2) := by
  intro needs
  induction needs with
  | nil => intro fl1 fl2 h; exact h
  | cons e es ih =>
    intro fl1 fl2 h
    exact ih (applyEntry_parallel h t b dS iS e)

lemma processSlot_parallel {fl1 fl2 : List Vehicle}
    (h : listRel sameExceptMin fl1 fl2) (A : ℚ) (sp : SlotPrices) (t : ℕ)
    (needs : List (ℕ × ℚ)) :
    listRel sameExceptMin (processSlot A sp t needs fl1) (processSlot A sp t needs fl2) := by
  simp only [processSlot]
  split_ifs with h1 h2
  · exact h
  · exact foldl_applyEntry_parallel _ _ _ _ needs h
  · exact h

lemma foldl_optStep_parallel (damT idm15T idm60T : PriceTable) (A : ℚ)
    (dls : List (List (ℕ × ℚ))) :
    ∀ (slots : List ℕ) {fl1 fl2 : List Vehicle}, listRel sameExceptMin fl1 fl2 →
      listRel sameExceptMin (slots.foldl (optStep damT idm15T idm60T A dls) fl1)
        (slots.foldl (optStep damT idm15T idm60T A dls) fl2) := by
  intro slots
  induction slots with
  | nil => intro fl1 fl2 h; exact h
  | cons t ts ih =>
    intro fl1 fl2 h
    exact ih (processSlot_parallel h A _ t _)

lemma resetVehicle_parallel {u v : Vehicle} (h : sameExceptMin u v) :
    sameExceptMin (resetVehicle u) (resetVehicle v) := by
  obtain ⟨e1, e2, e3, e4, e5, e6, e7, e8⟩ := h
  exact ⟨e1, e2, e3, e4, e3, e6, e7, rfl⟩

lemma listRel_map_parallel {R : Vehicle → Vehicle → Prop} {l1 l2 : List Vehicle}
    (h : listRel R l1 l2) (f : Vehicle → Vehicle)
    (hf : ∀ u v, R u v → R (f u) (f v)) :
    listRel R (l1.map f) (l2.map f) := by
  refine ⟨by rw [List.length_map, List.length_map, h.1], ?_⟩
  intro i v1 v2 h1 h2
  rcases listRel_get h i with ⟨hn1, hn2⟩ | ⟨w1, w2, hw1, hw2, hw⟩
  · rw [List.getElem?_map, hn1] at h1
    cases h1
  · rw [List.getElem?_map, hw1] at h1
    rw [List.getElem?_map, hw2] at h2
    cases h1
    cases h2
    exact hf w1 w2 hw

lemma optFleet1_parallel (start endT : ℕ) {l1 l2 : List Vehicle}
    (h : listRel sameExceptMin l1 l2) :
    listRel sameExceptMin (optFleet1 start endT l1) (optFleet1 start endT l2) := by
  -- `optFleet1` maps a per-vehicle function whose value on related vehicles is
  -- related; the eligibility test only reads arrival/departure.
  unfold optFleet1
  apply listRel_map_parallel h
  intro u v huv
  obtain ⟨hf1, hf2, _, _, _, _⟩ := sameExceptMin_fields huv
  have he : elig start endT u = elig start endT v := elig_eq_of_fields start endT hf1 hf2
  by_cases hu : elig start endT u
  · rw [if_pos hu, if_pos (he ▸ hu)]
    exact resetVehicle_parallel huv
  · have hv : ¬ elig start endT v = true := fun hb => hu (by rw [he]; exact hb)
    rw [if_neg hu, if_neg hv]
    exact huv

lemma baselineUpdateVehicle_parallel (damT : PriceTable) (slots : List ℕ)
    {u v : Vehicle} (h : sameExceptMin u v) :
    sameExceptMin (baselineUpdateVehicle damT slots u) (baselineUpdateVehicle damT slots v) := by
  obtain ⟨hf1, hf2, hf3, hf4, hf5, hf6⟩ := sameExceptMin_fields h
  have hs : baselineVehicleSched damT slots u = baselineVehicleSched damT slots v :=
    baselineVehicleSched_eq_of_fields damT slots hf1 hf2 hf3 hf4 hf5 hf6
  obtain ⟨e1, e2, e3, e4, e5, e6, e7, e8⟩ := h
  simp only [baselineUpdateVehicle, hs]
  split_ifs
  · exact ⟨e1, e2, e3, e4, e5, e6, e7, e8⟩
  · exact ⟨e1, e2, e3, e4, by rw [e3, e6], e6, e7, rfl⟩

/-- Claim C10.  `min_charge_kw` has no effect on either strategy: for two fleets
that agree on everything except each vehicle's `min_charge_kw`, both the
optimized and the baseline runs produce identical result rows, and the final
vehicle states again agree on everything except `min_charge_kw` (in
particular on `current_soc` and `charging_schedule`).  Moreover a vehicle may
be allocated a positive power below its `min_charge_kw`: a vehicle with
`min_charge_kw = 5` and a 1 kWh deficit is scheduled at 1 kW by the baseline
allocator. -/
theorem claim_C10 (damT idm15T idm60T : PriceTable) (A : ℚ) (start endT : ℕ)
    (f1 f2 : List Vehicle) (h : listRel sameExceptMin f1 f2) :
    (optimizedRun damT idm15T idm60T A start endT f1).1
      = (optimizedRun damT idm15T idm60T A start endT f2).1 ∧
    listRel sameExceptMin (optimizedRun damT idm15T idm60T A start endT f1).2
      (optimizedRun damT idm15T idm60T A start endT f2).2 ∧
    (baselineRun damT start endT f1).1 = (baselineRun damT start endT f2).1 ∧
    listRel sameExceptMin (baselineRun damT start endT f1).2
      (baselineRun damT start endT f2).2 ∧
    (baselineVehicleSched [(0, 10)] [0, 60]
        { arrival_time := 0, departure_time := 120, return_soc := 0, target_soc := 1,
          current_soc := 0, capacity_kwh := 1, min_charge_kw := 5, max_charge_kw := 11,
          charging_schedule := [] } = [(0, 1)] ∧
      (0 : ℚ) < 1 ∧ (1 : ℚ) < 5) := by
  have hdls : optDemandLists damT idm15T idm60T start endT f1
      = optDemandLists damT idm15T idm60T start endT f2 :=
    optDemandLists_eq_of_rel damT idm15T idm60T start endT h
      (fun u v huv => sameExceptMin_fields huv)
  have hscheds : baseScheds damT start endT f1 = baseScheds damT start endT f2 :=
    baseScheds_eq_of_rel damT start endT h (fun u v huv => sameExceptMin_fields huv)
  refine ⟨?_, ?_, ?_, ?_, ?_, by norm_num, by norm_num⟩
  · rw [optimizedRun_fst, optimizedRun_fst, hdls]
  · show listRel sameExceptMin
      ((optSlots start endT).foldl
        (optStep damT idm15T idm60T A (optDemandLists damT idm15T idm60T start endT f1))
        (optFleet1 start endT f1))
      ((optSlots start endT).foldl
        (optStep damT idm15T idm60T A (optDemandLists damT idm15T idm60T start endT f2))
        (optFleet1 start endT f2))
    rw [← hdls]
    exact foldl_optStep_parallel damT idm15T idm60T A _ _ (optFleet1_parallel start endT h)
  · rw [baselineRun_fst, baselineRun_fst, hscheds]
  · show listRel sameExceptMin
      (f1.map (fun v => if elig start endT v then
        baselineUpdateVehicle damT (baseSlots start endT) v else v))
      (f2.map (fun v => if elig start endT v then
        baselineUpdateVehicle damT (baseSlots start endT) v else v))
    apply listRel_map_parallel h
    intro u v huv
    obtain ⟨hf1, hf2, _, _, _, _⟩ := sameExceptMin_fields huv
    have he : elig start endT u = elig start endT v := elig_eq_of_fields start endT hf1 hf2
    by_cases hu : elig start endT u
    · rw [if_pos hu, if_pos (he ▸ hu)]
      exact baselineUpdateVehicle_parallel _ _ huv
    · have hv : ¬ elig start endT v = true := fun hb => hu (by rw [he]; exact hb)
      rw [if_neg hu, if_neg hv]
      exact huv
  · show baselineVehicleSched [(0, 10)] [0, 60] _ = [(0, 1)]
    norm_num [baselineVehicleSched, damPriceAt, bucketPrice, List.insertionSort,
      List.orderedInsert, baseGreedy, min_def, List.filter]

lemma listRel_singleton {R : Vehicle → Vehicle → Prop} {u v : Vehicle}
    (h : R u v) : listRel R [u] [v] := by
  refine ⟨rfl, ?_⟩
  intro i v1 v2 h1 h2
  cases i with
  | zero =>
    rw [List.getElem?_cons_zero] at h1 h2
    cases h1
    cases h2
    exact h
  | succ n =>
    rw [List.getElem?_cons_succ] at h1
    simp at h1

/-- Claim C10, witness.  Two singleton fleets differing only in `min_charge_kw`
(0 vs 5) produce identical optimized and baseline result rows. -/
theorem claim_C10_witness :
    (optimizedRun wDam wI15 wI60 (1/2) 0 15 [wVeh]).1
      = (optimizedRun wDam wI15 wI60 (1/2) 0 15 [{ wVeh with min_charge_kw := 5 }]).1 ∧
    (baselineRun wDam 0 15 [wVeh]).1
      = (baselineRun wDam 0 15 [{ wVeh with min_charge_kw := 5 }]).1 :=
  have h := claim_C10 wDam wI15 wI60 (1/2) 0 15 [wVeh] [{ wVeh with min_charge_kw := 5 }]
    (listRel_singleton ⟨rfl, rfl, rfl, rfl, rfl, rfl, rfl, rfl⟩)
  ⟨h.1, h.2.2.1⟩

/-! ### Accounting lemmas for claim C4 -/

lemma sum_map_add (f g : ℕ → ℚ) :
    ∀ (slots : List ℕ),
      (slots.map (fun t => f t + g t)).sum = (slots.map f).sum + (slots.map g).sum := by
  intro slots
  induction slots with
  | nil => simp
  | cons t ts ih =>
    simp only [List.map_cons, List.sum_cons, ih]
    ring

lemma sum_map_ite_single (a : ℕ) (c : ℚ) :
    ∀ (slots : List ℕ), slots.Nodup →
      (slots.map (fun t => if a == t then c else 0)).sum
        = (if a ∈ slots then c else 0) := by
  intro slots
  induction slots with
  | nil => intro _; simp
  | cons t ts ih =>
    intro hnd
    have hnd2 := List.nodup_cons.mp hnd
    rw [List.map_cons, List.sum_cons, ih hnd2.2]
    by_cases hat : a = t
    · subst hat
      rw [if_pos (by simp), if_neg hnd2.1, if_pos (List.mem_cons_self a ts)]
      ring
    · rw [if_neg (by simp [hat])]
      by_cases hats : a ∈ ts
      · rw [if_pos hats, if_pos (List.mem_cons_of_mem t hats)]
        ring
      · rw [if_neg hats, if_neg ?_]
        · ring
        · intro hh
          rcases List.mem_cons.mp hh with hh | hh
          · exact hat hh
          · exact hats hh

lemma slots_filter_sum (slots : List ℕ) (hnd : slots.Nodup) :
    ∀ (l : List (ℕ × ℚ)), (∀ e ∈ l, e.1 ∈ slots) →
      (slots.map (fun t => ((l.filter (fun e => e.1 == t)).map Prod.snd).sum)).sum
        = (l.map Prod.snd).sum := by
  intro l
  induction l with
  | nil => intro _; simp
  | cons e es ih =>
    intro hmem
    have hrec := ih (fun x hx => hmem x (List.mem_cons_of_mem _ hx))
    have hmap : (slots.map (fun t =>
        (((e :: es).filter (fun x => x.1 == t)).map Prod.snd).sum))
        = slots.map (fun t => (if e.1 == t then e.2 else 0)
            + ((es.filter (fun x => x.1 == t)).map Prod.snd).sum) := by
      apply List.map_congr_left
      intro t _
      by_cases het : e.1 = t
      · simp [List.filter_cons, het]
      · simp [List.filter_cons, het]
    rw [hmap, sum_map_add, hrec, sum_map_ite_single e.1 e.2 slots hnd,
      if_pos (hmem e (List.mem_cons_self _ _))]
    simp

lemma needsFrom_sum_at (t : ℕ) :
    ∀ (dls : List (List (ℕ × ℚ))) (i k : ℕ),
      (((needsFrom t i dls).filter (fun e => e.1 == i + k)).map Prod.snd).sum
        = (((dls.getD k []).filter (fun e => e.1 == t)).map Prod.snd).sum := by
  intro dls
  induction dls with
  | nil => intro i k; simp [needsFrom]
  | cons l rest ih =>
    intro i k
    simp only [needsFrom, List.filter_append, List.map_append, List.sum_append]
    cases k with
    | zero =>
      have h1 : ((l.filter (fun e => e.1 == t)).map (fun e => (i, e.2))).filter
          (fun e => e.1 == i + 0)
          = (l.filter (fun e => e.1 == t)).map (fun e => (i, e.2)) := by
        apply List.filter_eq_self.mpr
        intro e he
        obtain ⟨x, _, rfl⟩ := List.mem_map.mp he
        simp
      have h2 : (needsFrom t (i + 1) rest).filter (fun e => e.1 == i + 0) = [] := by
        apply List.filter_eq_nil_iff.mpr
        intro e he
        have := needsFrom_lb t rest (i + 1) e he
        simp only [beq_iff_eq]
        omega
      rw [h1, h2]
      have h3 : ((l.filter (fun e => e.1 == t)).map (fun e => (i, e.2))).map Prod.snd
          = (l.filter (fun e => e.1 == t)).map Prod.snd := by
        rw [List.map_map]
        rfl
      rw [h3]
      simp
    | succ k2 =>
      have h1 : ((l.filter (fun e => e.1 == t)).map (fun e => (i, e.2))).filter
          (fun e => e.1 == i + (k2 + 1)) = [] := by
        apply List.filter_eq_nil_iff.mpr
        intro e he
        obtain ⟨x, _, rfl⟩ := List.mem_map.mp he
        simp only [beq_iff_eq]
        omega
      rw [h1]
      simp only [List.map_nil, List.sum_nil, zero_add]
      have hik : i + (k2 + 1) = (i + 1) + k2 := by omega
      rw [hik, ih (i + 1) k2]
      rfl

lemma needsAt_filter_index (dls : List (List (ℕ × ℚ))) (t i : ℕ) :
    (((needsAt dls t).filter (fun e => e.1 == i)).map Prod.snd).sum
      = (((dls.getD i []).filter (fun e => e.1 == t)).map Prod.snd).sum := by
  have h := needsFrom_sum_at t dls 0 i
  simpa [needsAt] using h

lemma optSlots_nodup (start endT : ℕ) : (optSlots start endT).Nodup := by
  unfold optSlots
  apply List.Nodup.map
  · intro a b hab
    dsimp at hab
    omega
  · exact List.nodup_range _

lemma vehicleDemands_nonpos (damOf : ℕ → ℚ) (slots : List ℕ) (v : Vehicle)
    (h : (v.target_soc - v.return_soc) * v.capacity_kwh ≤ 0) :
    vehicleDemands damOf slots v = [] := by
  simp [vehicleDemands, h]

lemma vehicleDemands_energy_le (damOf : ℕ → ℚ) (slots : List ℕ) (v : Vehicle)
    (h : 0 ≤ (v.target_soc - v.return_soc) * v.capacity_kwh) :
    ((vehicleDemands damOf slots v).map Prod.snd).sum * (1/4)
      ≤ (v.target_soc - v.return_soc) * v.capacity_kwh := by
  simp only [vehicleDemands]
  split_ifs with hneed
  · simpa using h
  · exact optGreedy_energy_le _ _ _ h

lemma optimizedRun_snd (damT idm15T idm60T : PriceTable) (A : ℚ) (start endT : ℕ)
    (fleet : List Vehicle) :
    (optimizedRun damT idm15T idm60T A start endT fleet).2
      = (optSlots start endT).foldl
          (optStep damT idm15T idm60T A (optDemandLists damT idm15T idm60T start endT fleet))
          (optFleet1 start endT fleet) := rfl

lemma applyEntry_none {fl : List Vehicle} {e : ℕ × ℚ} (t : ℕ) (b : Bool) (dS iS : ℚ)
    (h : fl[e.1]? = none) : applyEntry t b dS iS fl e = fl := by
  unfold applyEntry
  rw [h]

lemma applyEntry_some {fl : List Vehicle} {e : ℕ × ℚ} {v : Vehicle} (t : ℕ) (b : Bool)
    (dS iS : ℚ) (h : fl[e.1]? = some v) :
    applyEntry t b dS iS fl e = fl.set e.1 (applyVeh t b dS iS e.2 v) := by
  unfold applyEntry
  rw [h]

lemma listRel_refl {R : Vehicle → Vehicle → Prop} (h : ∀ v, R v v)
    (l : List Vehicle) : listRel R l l := by
  refine ⟨rfl, ?_⟩
  intro i v1 v2 h1 h2
  rw [h1] at h2
  cases h2
  exact h v1

lemma applyVeh_soc_eq (t : ℕ) (b : Bool) (dS iS p : ℚ) (v : Vehicle) :
    (applyVeh t b dS iS p v).current_soc
      = v.current_soc + p * ((iS + dS) * (1/4)) / v.capacity_kwh := by
  simp only [applyVeh]
  ring_nf

lemma applyVeh_soc_mono (t : ℕ) (b : Bool) (dS iS p : ℚ) (v : Vehicle)
    (hd : 0 ≤ dS) (hi : 0 ≤ iS) (hp : 0 ≤ p) (hc : 0 ≤ v.capacity_kwh) :
    v.current_soc ≤ (applyVeh t b dS iS p v).current_soc := by
  rw [applyVeh_soc_eq]
  have h0 : 0 ≤ p * ((iS + dS) * (1/4)) / v.capacity_kwh :=
    div_nonneg (mul_nonneg hp (mul_nonneg (add_nonneg hi hd) (by norm_num))) hc
  linarith

lemma foldl_applyEntry_mono (t : ℕ) (b : Bool) (dS iS : ℚ)
    (hd : 0 ≤ dS) (hi : 0 ≤ iS) :
    ∀ (needs : List (ℕ × ℚ)) (fl : List Vehicle),
      (∀ e ∈ needs, 0 ≤ e.2) → (∀ w ∈ fl, 0 ≤ w.capacity_kwh) →
      listRel (fun u v => u.current_soc ≤ v.current_soc) fl
          (needs.foldl (applyEntry t b dS iS) fl) ∧
      (∀ w ∈ needs.foldl (applyEntry t b dS iS) fl, 0 ≤ w.capacity_kwh) := by
  intro needs
  induction needs with
  | nil =>
    intro fl _ hcap
    exact ⟨listRel_refl (fun v => le_refl v.current_soc) fl, hcap⟩
  | cons e es ih =>
    intro fl hpe hcap
    have hstep : listRel (fun u v => u.current_soc ≤ v.current_soc) fl
        (applyEntry t b dS iS fl e) ∧
        (∀ w ∈ applyEntry t b dS iS fl e, 0 ≤ w.capacity_kwh) := by
      cases hx : fl[e.1]? with
      | none => rw [applyEntry_none t b dS iS hx]
                exact ⟨listRel_refl (fun v => le_refl v.current_soc) fl, hcap⟩
      | some v =>
        rw [applyEntry_some t b dS iS hx]
        have hvmem : v ∈ fl := List.getElem?_mem hx
        constructor
        · apply listRel_set (listRel_refl (fun w => le_refl w.current_soc) fl)
          intro v1 h1
          rw [hx] at h1
          cases h1
          exact applyVeh_soc_mono t b dS iS e.2 v hd hi
            (hpe e (List.mem_cons_self _ _)) (hcap v hvmem)
        · intro w hw
          rcases List.mem_or_eq_of_mem_set hw with hw2 | rfl
          · exact hcap w hw2
          · exact hcap v hvmem
    obtain ⟨hs1, hs2⟩ := hstep
    obtain ⟨hr1, hr2⟩ := ih _ (fun x hx2 => hpe x (List.mem_cons_of_mem _ hx2)) hs2
    refine ⟨?_, hr2⟩
    have htr : Transitive (fun u v : Vehicle => u.current_soc ≤ v.current_soc) :=
      fun a b c hab hbc => le_trans hab hbc
    exact listRel_trans htr hs1 hr1

lemma processSlot_mono (A : ℚ) (sp : SlotPrices) (t : ℕ) (needs : List (ℕ × ℚ))
    (fl : List Vehicle) (hA0 : 0 ≤ A) (hA1 : A ≤ 1)
    (hpos : ∀ e ∈ needs, 0 < e.2) (hcap : ∀ w ∈ fl, 0 ≤ w.capacity_kwh) :
    listRel (fun u v => u.current_soc ≤ v.current_soc) fl (processSlot A sp t needs fl) ∧
    (∀ w ∈ processSlot A sp t needs fl, 0 ≤ w.capacity_kwh) := by
  simp only [processSlot]
  split_ifs with h1 h2
  · exact ⟨listRel_refl (fun v => le_refl v.current_soc) fl, hcap⟩
  · obtain ⟨hia0, _, hda0, _, _, _⟩ :=
      allocFor_spec A (powerSum needs) hA0 hA1 (le_of_lt h2)
    exact foldl_applyEntry_mono t _ _ _
      (div_nonneg hda0 (le_of_lt h2)) (div_nonneg hia0 (le_of_lt h2))
      needs fl (fun e he => le_of_lt (hpos e he)) hcap
  · exact ⟨listRel_refl (fun v => le_refl v.current_soc) fl, hcap⟩

lemma foldl_optStep_mono (damT idm15T idm60T : PriceTable) (A : ℚ)
    (dls : List (List (ℕ × ℚ))) (hA0 : 0 ≤ A) (hA1 : A ≤ 1)
    (hdls : ∀ l ∈ dls, ∀ x ∈ l, 0 < x.2) :
    ∀ (slots : List ℕ) (fl : List Vehicle), (∀ w ∈ fl, 0 ≤ w.capacity_kwh) →
      listRel (fun u v => u.current_soc ≤ v.current_soc) fl
          (slots.foldl (optStep damT idm15T idm60T A dls) fl) ∧
      (∀ w ∈ slots.foldl (optStep damT idm15T idm60T A dls) fl, 0 ≤ w.capacity_kwh) := by
  intro slots
  induction slots with
  | nil => intro fl hcap; exact ⟨listRel_refl (fun v => le_refl v.current_soc) fl, hcap⟩
  | cons t ts ih =>
    intro fl hcap
    obtain ⟨hs1, hs2⟩ := processSlot_mono A (slotPrices damT idm15T idm60T t) t
      (needsAt dls t) fl hA0 hA1 (needsAt_snd_pos dls t hdls) hcap
    obtain ⟨hr1, hr2⟩ := ih _ hs2
    refine ⟨?_, hr2⟩
    have htr : Transitive (fun u v : Vehicle => u.current_soc ≤ v.current_soc) :=
      fun a b c hab hbc => le_trans hab hbc
    exact listRel_trans htr hs1 hr1

lemma optFleet1_caps (start endT : ℕ) (fleet : List Vehicle)
    (h : ∀ v ∈ fleet, 0 ≤ v.capacity_kwh) :
    ∀ w ∈ optFleet1 start endT fleet, 0 ≤ w.capacity_kwh := by
  intro w hw
  obtain ⟨u, hu, rfl⟩ := List.mem_map.mp hw
  by_cases he : elig start endT u
  · rw [if_pos he]
    exact h u hu
  · rw [if_neg he]
    exact h u hu

lemma foldl_applyEntry_soc_eq (t : ℕ) (b : Bool) (dS iS : ℚ) :
    ∀ (needs : List (ℕ × ℚ)) (fl : List Vehicle) (i : ℕ) (v : Vehicle),
      fl[i]? = some v →
      ∃ v', (needs.foldl (applyEntry t b dS iS) fl)[i]? = some v' ∧
        sameImmutable v v' ∧
        v'.current_soc = v.current_soc
          + (((needs.filter (fun e => e.1 == i)).map Prod.snd).sum)
              * ((iS + dS) * (1/4)) / v.capacity_kwh := by
  intro needs
  induction needs with
  | nil =>
    intro fl i v h
    exact ⟨v, h, sameImmutable_refl v, by simp⟩
  | cons e es ih =>
    intro fl i v h
    by_cases hei : e.1 = i
    · have hi : e.1 < fl.length := by
        rw [hei]
        by_contra hcon
        rw [List.getElem?_eq_none (le_of_not_lt hcon)] at h
        cases h
      have hx : fl[e.1]? = some v := by rw [hei]; exact h
      have hfl1 : applyEntry t b dS iS fl e = fl.set e.1 (applyVeh t b dS iS e.2 v) :=
        applyEntry_some t b dS iS hx
      have hget : (fl.set e.1 (applyVeh t b dS iS e.2 v))[i]?
          = some (applyVeh t b dS iS e.2 v) := by
        rw [← hei]
        exact List.getElem?_set_eq_of_lt _ hi
      simp only [List.foldl_cons, hfl1]
      obtain ⟨v', hv1, hv2, hv3⟩ := ih _ i _ hget
      refine ⟨v', hv1,
        sameImmutable_trans (applyVeh_sameImmutable t b dS iS e.2 v) hv2, ?_⟩
      rw [hv3, applyVeh_soc_eq]
      have hcap : (applyVeh t b dS iS e.2 v).capacity_kwh = v.capacity_kwh := rfl
      rw [hcap]
      have hfilter : (((e :: es).filter (fun x => x.1 == i)).map Prod.snd).sum
          = e.2 + ((es.filter (fun x => x.1 == i)).map Prod.snd).sum := by
        simp [List.filter_cons, hei]
      rw [hfilter]
      ring
    · have hfl1 : (applyEntry t b dS iS fl e)[i]? = some v := by
        cases hx : fl[e.1]? with
        | none => rw [applyEntry_none t b dS iS hx]; exact h
        | some w =>
          rw [applyEntry_some t b dS iS hx, List.getElem?_set_ne hei]
          exact h
      simp only [List.foldl_cons]
      obtain ⟨v', hv1, hv2, hv3⟩ := ih _ i v hfl1
      refine ⟨v', hv1, hv2, ?_⟩
      rw [hv3]
      have hfilter : (e :: es).filter (fun x => x.1 == i) = es.filter (fun x => x.1 == i) := by
        simp [List.filter_cons, hei]
      rw [hfilter]

lemma processSlot_soc_eq (A : ℚ) (sp : SlotPrices) (t : ℕ) (needs : List (ℕ × ℚ))
    (fl : List Vehicle) (i : ℕ) (v : Vehicle) (hA0 : 0 ≤ A) (hA1 : A ≤ 1)
    (hpos : ∀ e ∈ needs, 0 < e.2) (h : fl[i]? = some v) :
    ∃ v', (processSlot A sp t needs fl)[i]? = some v' ∧ sameImmutable v v' ∧
      v'.current_soc = v.current_soc
        + (((needs.filter (fun e => e.1 == i)).map Prod.snd).sum) * (1/4)
            / v.capacity_kwh := by
  simp only [processSlot]
  split_ifs with h1 h2
  · have hnil : needs = [] := by
      cases hnds : needs with
      | nil => rfl
      | cons x xs => rw [hnds] at h1; cases h1
    refine ⟨v, h, sameImmutable_refl v, ?_⟩
    rw [hnil]
    simp
  · obtain ⟨hia0, hiale, hda0, hsum, _, _⟩ :=
      allocFor_spec A (powerSum needs) hA0 hA1 (le_of_lt h2)
    obtain ⟨v', hv1, hv2, hv3⟩ := foldl_applyEntry_soc_eq t
      (decide (sp.idm15 ≤ sp.idm60))
      ((allocFor A (powerSum needs)).1 / powerSum needs)
      ((allocFor A (powerSum needs)).2 / powerSum needs) needs fl i v h
    refine ⟨v', hv1, hv2, ?_⟩
    rw [hv3]
    have hshare : (allocFor A (powerSum needs)).2 / powerSum needs
        + (allocFor A (powerSum needs)).1 / powerSum needs = 1 := by
      rw [div_add_div_same]
      rw [show (allocFor A (powerSum needs)).2 + (allocFor A (powerSum needs)).1
          = powerSum needs by linarith]
      exact div_self (ne_of_gt h2)
    rw [hshare, one_mul]
  · have hne : needs ≠ [] := by
      intro hnil
      rw [hnil] at h1
      exact h1 rfl
    exact absurd (powerSum_pos needs hpos hne) h2

lemma foldl_optStep_soc_eq (damT idm15T idm60T : PriceTable) (A : ℚ)
    (dls : List (List (ℕ × ℚ))) (hA0 : 0 ≤ A) (hA1 : A ≤ 1)
    (hdls : ∀ l ∈ dls, ∀ x ∈ l, 0 < x.2) :
    ∀ (slots : List ℕ) (fl : List Vehicle) (i : ℕ) (v : Vehicle), fl[i]? = some v →
      ∃ v', ((slots.foldl (optStep damT idm15T idm60T A dls) fl)[i]? = some v' ∧
        sameImmutable v v' ∧
        v'.current_soc = v.current_soc
          + ((slots.map (fun t =>
              (((needsAt dls t).filter (fun e => e.1 == i)).map Prod.snd).sum)).sum)
              * (1/4) / v.capacity_kwh) := by
  intro slots
  induction slots with
  | nil =>
    intro fl i v h
    exact ⟨v, h, sameImmutable_refl v, by simp⟩
  | cons t ts ih =>
    intro fl i v h
    obtain ⟨v1, h1, h2, h3⟩ := processSlot_soc_eq A (slotPrices damT idm15T idm60T t) t
      (needsAt dls t) fl i v hA0 hA1 (needsAt_snd_pos dls t hdls) h
    simp only [List.foldl_cons]
    obtain ⟨v', hv1, hv2, hv3⟩ := ih (optStep damT idm15T idm60T A dls fl t) i v1 h1
    refine ⟨v', hv1, sameImmutable_trans h2 hv2, ?_⟩
    rw [hv3, h3]
    have hcap : v1.capacity_kwh = v.capacity_kwh := (h2.2.2.2.2.1).symm
    rw [hcap]
    simp only [List.map_cons, List.sum_cons]
    ring

/-! ### Claim C4 (confirmed) -/

/-- Claim C4.  Within one optimized allocation pass every vehicle's
`current_soc` is non-decreasing across the chronological slot steps, and at
the end of the pass no vehicle exceeds its `target_soc`: the Phase 1
projection never records more energy than the vehicle's deficit and Phase 3
distributes exactly the recorded power.  The fleet hypotheses hold for every
generated fleet: positive capacity and `return_soc ≤ target_soc`,
`current_soc ≤ target_soc` initially. -/
theorem claim_C4 (damT idm15T idm60T : PriceTable) (A : ℚ) (start endT : ℕ)
    (fleet : List Vehicle) (hA0 : 0 ≤ A) (hA1 : A ≤ 1)
    (hv : ∀ v ∈ fleet, 0 < v.capacity_kwh ∧ v.return_soc ≤ v.target_soc ∧
      v.current_soc ≤ v.target_soc) :
    (∀ k1 k2 : ℕ, k1 ≤ k2 → ∀ (i : ℕ) (v1 v2 : Vehicle),
      (optFleetAfter damT idm15T idm60T A start endT fleet k1)[i]? = some v1 →
      (optFleetAfter damT idm15T idm60T A start endT fleet k2)[i]? = some v2 →
      v1.current_soc ≤ v2.current_soc) ∧
    (∀ (i : ℕ) (v : Vehicle),
      ((optimizedRun damT idm15T idm60T A start endT fleet).2)[i]? = some v →
      v.current_soc ≤ v.target_soc) := by
  have hdls : ∀ l ∈ optDemandLists damT idm15T idm60T start endT fleet, ∀ x ∈ l, 0 < x.2 :=
    optDemandLists_pos damT idm15T idm60T start endT fleet
  have hcaps1 : ∀ w ∈ optFleet1 start endT fleet, 0 ≤ w.capacity_kwh :=
    optFleet1_caps start endT fleet (fun w hm => le_of_lt (hv w hm).1)
  constructor
  · intro k1 k2 hk i v1 v2 h1 h2
    have hcapsk1 : ∀ w ∈ optFleetAfter damT idm15T idm60T A start endT fleet k1,
        0 ≤ w.capacity_kwh :=
      (foldl_optStep_mono damT idm15T idm60T A _ hA0 hA1 hdls _ _ hcaps1).2
    have hsplit : (optSlots start endT).take k2
        = (optSlots start endT).take k1
          ++ ((optSlots start endT).drop k1).take (k2 - k1) := by
      rw [← List.take_add]
      congr 1
      omega
    have hafter : optFleetAfter damT idm15T idm60T A start endT fleet k2
        = (((optSlots start endT).drop k1).take (k2 - k1)).foldl
            (optStep damT idm15T idm60T A
              (optDemandLists damT idm15T idm60T start endT fleet))
            (optFleetAfter damT idm15T idm60T A start endT fleet k1) := by
      unfold optFleetAfter
      rw [hsplit, List.foldl_append]
    rw [hafter] at h2
    exact ((foldl_optStep_mono damT idm15T idm60T A _ hA0 hA1 hdls _ _
      hcapsk1).1).2 i v1 v2 h1 h2
  · intro i v hiv
    rw [optimizedRun_snd] at hiv
    have hrel := foldl_optStep_immut damT idm15T idm60T A
      (optDemandLists damT idm15T idm60T start endT fleet) (optSlots start endT)
      (optFleet1 start endT fleet) (listRel_refl sameImmutable_refl _)
    have hlen1 : i < (optFleet1 start endT fleet).length := by
      by_contra hcon
      have hn : ((optSlots start endT).foldl
          (optStep damT idm15T idm60T A
            (optDemandLists damT idm15T idm60T start endT fleet))
          (optFleet1 start endT fleet))[i]? = none := by
        apply List.getElem?_eq_none
        rw [← hrel.1]
        exact le_of_not_lt hcon
      rw [hn] at hiv
      cases hiv
    have hu : (optFleet1 start endT fleet)[i]? = some ((optFleet1 start endT fleet)[i]) :=
      List.getElem?_eq_getElem hlen1
    obtain ⟨v', hv1, hv2, hv3⟩ := foldl_optStep_soc_eq damT idm15T idm60T A _ hA0 hA1 hdls
      (optSlots start endT) (optFleet1 start endT fleet) i _ hu
    rw [hiv] at hv1
    cases hv1
    set u := (optFleet1 start endT fleet)[i] with hudef
    have hlenf : i < fleet.length := by
      have hlm : (optFleet1 start endT fleet).length = fleet.length := by
        unfold optFleet1
        rw [List.length_map]
      rw [← hlm]
      exact hlen1
    have hu0 : u = if elig start endT fleet[i] then resetVehicle fleet[i] else fleet[i] := by
      rw [hudef]
      simp [optFleet1]
    have hmemf : fleet[i] ∈ fleet := List.getElem_mem hlenf
    obtain ⟨hc0, hr0, hs0⟩ := hv fleet[i] hmemf
    have hdlsi : (optDemandLists damT idm15T idm60T start endT fleet).getD i []
        = (if elig start endT u then
            vehicleDemands (optDamOf damT idm15T idm60T) (optSlots start endT) u
          else []) := by
      have hsome : (optDemandLists damT idm15T idm60T start endT fleet)[i]?
          = some (if elig start endT u then
              vehicleDemands (optDamOf damT idm15T idm60T) (optSlots start endT) u
            else []) := by
        unfold optDemandLists
        rw [List.getElem?_map, hu]
        rfl
      rw [List.getD_eq_getElem?_getD, hsome]
      rfl
    have hS : ((optSlots start endT).map (fun t =>
        (((needsAt (optDemandLists damT idm15T idm60T start endT fleet) t).filter
          (fun e => e.1 == i)).map Prod.snd).sum)).sum
        = (((optDemandLists damT idm15T idm60T start endT fleet).getD i []).map
            Prod.snd).sum := by
      have hcongr : (optSlots start endT).map (fun t =>
          (((needsAt (optDemandLists damT idm15T idm60T start endT fleet) t).filter
            (fun e => e.1 == i)).map Prod.snd).sum)
          = (optSlots start endT).map (fun t =>
            ((((optDemandLists damT idm15T idm60T start endT fleet).getD i []).filter
              (fun e => e.1 == t)).map Prod.snd).sum) := by
        apply List.map_congr_left
        intro t _
        exact needsAt_filter_index _ t i
      rw [hcongr]
      apply slots_filter_sum _ (optSlots_nodup start endT)
      intro e he
      rw [hdlsi] at he
      by_cases hel : elig start endT u
      · rw [if_pos hel] at he
        exact ((vehicleDemands_mem _ _ _ e he).2).1
      · rw [if_neg hel] at he
        cases he
    rw [hS] at hv3
    have htv : v.target_soc = u.target_soc := (hv2.2.2.2.1).symm
    by_cases hel : elig start endT fleet[i]
    · have hueq : u = resetVehicle fleet[i] := by rw [hu0, if_pos hel]
      have husoc2 : u.current_soc = u.return_soc := by rw [hueq]; rfl
      have hutgt : u.target_soc = (fleet[i]).target_soc := by rw [hueq]; rfl
      have huret : u.return_soc = (fleet[i]).return_soc := by rw [hueq]; rfl
      have hucap : u.capacity_kwh = (fleet[i]).capacity_kwh := by rw [hueq]; rfl
      have helu : elig start endT u = true := by rw [hueq]; exact hel
      rw [hdlsi, if_pos helu] at hv3
      by_cases hneed : (u.target_soc - u.return_soc) * u.capacity_kwh ≤ 0
      · rw [vehicleDemands_nonpos _ _ _ hneed] at hv3
        simp at hv3
        rw [hv3, htv, husoc2]
        have : u.return_soc ≤ u.target_soc := by
          rw [huret, hutgt]
          exact hr0
        linarith
      · push_neg at hneed
        have hle := vehicleDemands_energy_le (optDamOf damT idm15T idm60T)
          (optSlots start endT) u (le_of_lt hneed)
        have hcap2 : 0 < u.capacity_kwh := by rw [hucap]; exact hc0
        have hdiv : ((vehicleDemands (optDamOf damT idm15T idm60T)
            (optSlots start endT) u).map Prod.snd).sum * (1/4) / u.capacity_kwh
            ≤ (u.target_soc - u.return_soc) * u.capacity_kwh / u.capacity_kwh :=
          (div_le_div_iff_of_pos_right hcap2).mpr hle
        have hxx : (u.target_soc - u.return_soc) * u.capacity_kwh / u.capacity_kwh
            = u.target_soc - u.return_soc :=
          mul_div_cancel_right₀ _ (ne_of_gt hcap2)
        rw [hv3, htv, husoc2]
        linarith [hdiv, hxx]
    · have hueq : u = fleet[i] := by rw [hu0, if_neg hel]
      have helu : ¬ elig start endT u = true := by rw [hueq]; exact hel
      rw [hdlsi, if_neg helu] at hv3
      simp at hv3
      rw [hv3, htv, hueq]
      exact hs0

/-- Claim C4, witness.  The one-vehicle witness fleet satisfies the fleet
hypotheses, and after the optimized pass its SOC does not exceed the target. -/
theorem claim_C4_witness :
    (∀ v ∈ [wVeh], 0 < v.capacity_kwh ∧ v.return_soc ≤ v.target_soc ∧
      v.current_soc ≤ v.target_soc) ∧
    (∀ (i : ℕ) (v : Vehicle),
      ((optimizedRun wDam wI15 wI60 (1/2) 0 15 [wVeh]).2)[i]? = some v →
      v.current_soc ≤ v.target_soc) := by
  have hfleet : ∀ v ∈ [wVeh], 0 < v.capacity_kwh ∧ v.return_soc ≤ v.target_soc ∧
      v.current_soc ≤ v.target_soc := by
    intro v hvm
    rw [List.mem_singleton] at hvm
    subst hvm
    exact ⟨by norm_num [wVeh], by norm_num [wVeh], by norm_num [wVeh]⟩
  exact ⟨hfleet,
    (claim_C4 wDam wI15 wI60 (1/2) 0 15 [wVeh] (by norm_num) (by norm_num) hfleet).2⟩

end EVFleet
